import Mathlib

/-! go-log2avro: a shallow embedding of the mapping pipeline

The Go sources embedded here are

* `util/io.go` (deferred computations `IO[T]`),
* `output/avro/hamba/maps2avro.go` (the field mapper built by
  `MapperConfig.ToMapper` and the driver `mapsToAvro`).

Go values of static type `any` are embedded as the inductive type `Any`.
A Go `map[string]any` is embedded as a list of key/value pairs; the order of
the list is the order in which a `range` over the map visits the entries.  Go
leaves that order unspecified, so every duplicate-free list is a possible map.
Functions that mutate a map argument in place return the map after the call.
-/

set_option autoImplicit false

namespace Log2Avro

/-! ## Dynamically typed values and maps -/

/-- Go values of static type `any` that occur in the pipeline: the results of
decoding JSON (`nil`, `bool`, `float64` given by its bit pattern, `string`,
`[]any`, `map[string]any`) and the `int64` produced by `UnixMicro`. -/
inductive Any where
  | null
  | bool (b : Bool)
  | float64 (bits : Nat)
  | string (s : String)
  | int64 (n : Int)
  | slice (xs : List Any)
  | map (kvs : List (String × Any))

/-- Go `map[string]any`, entries listed in iteration order. -/
abbrev GoMap := List (String × Any)

/-- The type `StructuredLog` of `log2avro.go`. -/
abbrev StructuredLog := GoMap

namespace GoMap

/-- The keys of a map, in iteration order. -/
def keys (m : GoMap) : List String := m.map Prod.fst

/-- Go maps hold each key once. -/
def WF (m : GoMap) : Prop := (keys m).Nodup

/-- Go `a, found := m[k]`: `none` when the key is absent. -/
def find : GoMap → String → Option Any
  | [], _ => none
  | (k', v) :: rest, k => if k' = k then some v else find rest k

/-- Go `delete(m, k)`. -/
def delete (m : GoMap) (k : String) : GoMap :=
  m.filter (fun kv => decide (kv.1 ≠ k))

/-- Go `m[k] = v`: overwrite the entry of `k`, or add a new entry. -/
def store : GoMap → String → Any → GoMap
  | [], k, v => [(k, v)]
  | (k', v') :: rest, k, v =>
    if k' = k then (k, v) :: rest else (k', v') :: store rest k v

/-- Go `clear(m)` on a map. -/
def clear (_m : GoMap) : GoMap := []

end GoMap

/-! ## Errors -/

/-- Go `error` values.  `errorString` is the result of `errors.New`,
`wrapError` the result of `fmt.Errorf("%w: %v", inner, v)`, `joinError` the
result of `errors.Join`, and `ParseError` the error of `time.Parse`. -/
inductive Error where
  | errorString (msg : String)
  | wrapError (inner : Error) (v : Any)
  | joinError (errs : List Error)
  | ParseError (layout value : String)

/-- A Go value of type `error`; `none` is `nil`. -/
abbrev GoError := Option Error

def ErrNoTime : Error := .errorString "no time found in the log"
def ErrNoLevel : Error := .errorString "no level found in the log"
def ErrInvalidLevel : Error := .errorString "invalid level"
def ErrInvalidTime : Error := .errorString "invalid time"

/-- Go `err == target` for error values: values made by `errors.New` are
identified by their text, freshly allocated wrappers equal no target. -/
def Error.same : Error → Error → Bool
  | .errorString a, .errorString b => a == b
  | _, _ => false

/-- Go `errors.Is(err, target)`: `err` or an error it wraps equals `target`. -/
def Error.Is : Error → Error → Bool
  | .errorString m, target => Error.same (.errorString m) target
  | .wrapError inner _, target => inner.Is target
  | .joinError errs, target => anyIs errs target
  | .ParseError _ _, _ => false
where
  /-- Some error of the list is `target`. -/
  anyIs : List Error → Error → Bool
  | [], _ => false
  | e :: es, target => e.Is target || anyIs es target

/-- Go `errors.Join`: `nil` when every argument is `nil`, otherwise an error
that wraps the non-nil arguments. -/
def errorsJoin (errs : List GoError) : GoError :=
  match errs.filterMap id with
  | [] => none
  | es => some (.joinError es)

/-! ## Time -/

/-- Go `time.Time`, reduced to the instant it denotes: seconds since the Unix
epoch and nanoseconds within the second. -/
structure Time where
  sec : Int
  nsec : Int

/-- Go `time.Time{}`: January 1 of year 1, 00:00:00 UTC. -/
def Time.zero : Time := ⟨-62135596800, 0⟩

/-- Conversion of an integer to Go `int64` (two's complement wrap-around). -/
def toInt64 (x : Int) : Int := (x + 2 ^ 63) % 2 ^ 64 - 2 ^ 63

/-- Go `func (t Time) UnixMicro() int64`. -/
def Time.UnixMicro (t : Time) : Int :=
  toInt64 (t.sec * 1000000 + t.nsec / 1000)

/-- Go `time.RFC3339Nano`. -/
def RFC3339Nano : String := "2006-01-02T15:04:05.999999999Z07:00"

namespace GoTime

/-- ASCII decimal digit. -/
def isDigit (c : Char) : Bool := decide (48 ≤ c.toNat) && decide (c.toNat ≤ 57)

def digitVal (c : Char) : Nat := c.toNat - 48

/-- Go `getnum` of package time: one or two leading digits, exactly two when
`fixed`. -/
def getnum (s : List Char) (fixed : Bool) : Option (Nat × List Char) :=
  match s with
  | [] => none
  | [c0] =>
    if isDigit c0 then (if fixed then none else some (digitVal c0, [])) else none
  | c0 :: c1 :: rest =>
    if isDigit c0 then
      if isDigit c1 then some (digitVal c0 * 10 + digitVal c1, rest)
      else if fixed then none else some (digitVal c0, c1 :: rest)
    else none

/-- The four-digit year of the layout element `2006`. -/
def getyear (s : List Char) : Option (Nat × List Char) :=
  match s with
  | a :: b :: c :: d :: rest =>
    if isDigit a && isDigit b && isDigit c && isDigit d then
      some (digitVal a * 1000 + digitVal b * 100 + digitVal c * 10 + digitVal d, rest)
    else none
  | _ => none

/-- A literal character of the layout. -/
def skip (c : Char) (s : List Char) : Option (List Char) :=
  match s with
  | x :: rest => if x = c then some rest else none
  | [] => none

/-- The leading digits of a string and what follows them. -/
def spanDigits : List Char → List Char × List Char
  | [] => ([], [])
  | c :: rest =>
    if isDigit c then ((c :: (spanDigits rest).1), (spanDigits rest).2)
    else ([], c :: rest)

/-- Go `parseNanoseconds`: the digits after the separator, cut to nine and
scaled to nanoseconds. -/
def nanosOf (digits : List Char) : Nat :=
  let ds := digits.take 9
  (ds.foldl (fun acc c => acc * 10 + digitVal c) 0) * 10 ^ (9 - ds.length)

/-- The layout element `.999999999`: an optional fraction opened by a period
or a comma and holding any number of digits. -/
def getfrac (s : List Char) : Nat × List Char :=
  match s with
  | sep :: d :: rest =>
    if (sep = '.' ∨ sep = ',') ∧ isDigit d = true then
      (nanosOf (spanDigits (d :: rest)).1, (spanDigits (d :: rest)).2)
    else (0, s)
  | _ => (0, s)

/-- The layout element `Z07:00`: `Z`, or a sign, two digits, a colon and two
digits; the result is the offset east of UTC in seconds. -/
def getzone (s : List Char) : Option (Int × List Char) :=
  match s with
  | 'Z' :: rest => some (0, rest)
  | sign :: h1 :: h2 :: colon :: m1 :: m2 :: rest =>
    if colon = ':' then
      match getnum [h1, h2] true, getnum [m1, m2] true with
      | some (hr, _), some (mm, _) =>
        if hr > 24 ∨ mm > 60 then none
        else if sign = '+' then some (((hr * 60 + mm) * 60 : Nat), rest)
        else if sign = '-' then some (-(((hr * 60 + mm) * 60 : Nat) : Int), rest)
        else none
      | _, _ => none
    else none
  | _ => none

def isLeap (y : Nat) : Bool := y % 4 == 0 && (y % 100 != 0 || y % 400 == 0)

/-- Go `daysIn`. -/
def daysIn (month year : Nat) : Nat :=
  match month with
  | 2 => if isLeap year then 29 else 28
  | 4 => 30
  | 6 => 30
  | 9 => 30
  | 11 => 30
  | _ => 31

/-- Days of the year before the first day of `month`. -/
def daysBeforeMonth (month year : Nat) : Nat :=
  ((List.range (month - 1)).map (fun i => daysIn (i + 1) year)).sum

/-- Days from 0000-01-01 to January 1 of `year` (proleptic Gregorian). -/
def daysBeforeYear (year : Nat) : Nat :=
  if year = 0 then 0
  else 365 * year + (year - 1) / 4 - (year - 1) / 100 + (year - 1) / 400 + 1

/-- Go `time.Date(year, month, day, hour, min, sec, nsec, time.UTC)` for
in-range fields. -/
def Date (year month day hour min sec nsec : Nat) : Time :=
  { sec := (((daysBeforeYear year + daysBeforeMonth month year + (day - 1) : Nat) : Int)
              - 719528) * 86400 + ((hour * 3600 + min * 60 + sec : Nat) : Int)
    nsec := (nsec : Int) }

/-- The layout elements `2006-01-02`: year, month and day, the month checked
against its range as soon as it is read. -/
def getdate (value : List Char) : Option ((Nat × Nat × Nat) × List Char) := do
  let (year, v1) ← getyear value
  let v2 ← skip '-' v1
  let (month, v3) ← getnum v2 true
  if month = 0 ∨ 12 < month then none
  let v4 ← skip '-' v3
  let (day, v5) ← getnum v4 true
  pure ((year, month, day), v5)

/-- The layout elements `15:04:05`: hour (one or two digits), minute and
second, each checked against its range as soon as it is read. -/
def getclock (value : List Char) : Option ((Nat × Nat × Nat) × List Char) := do
  let (hour, v1) ← getnum value false
  if 24 ≤ hour then none
  let v2 ← skip ':' v1
  let (min, v3) ← getnum v2 true
  if 60 ≤ min then none
  let v4 ← skip ':' v3
  let (sec, v5) ← getnum v4 true
  if 60 ≤ sec then none
  pure ((hour, min, sec), v5)

/-- Go `time.Parse(time.RFC3339Nano, value)` on the characters of `value`,
following the parse routine of the standard library element by element;
`none` stands for a `*time.ParseError`. -/
def parseRFC3339Nano (value : List Char) : Option Time := do
  let (ymd, v1) ← getdate value
  let v2 ← skip 'T' v1
  let (hms, v3) ← getclock v2
  let (offset, v4) ← getzone (getfrac v3).2
  if v4 ≠ [] then none
  if ymd.2.2 < 1 ∨ ymd.2.2 > daysIn ymd.2.1 ymd.1 then none
  let t := Date ymd.1 ymd.2.1 ymd.2.2 hms.1 hms.2.1 hms.2.2 (getfrac v3).1
  pure { t with sec := t.sec - offset }

end GoTime

/-- Go `time.Parse(layout, value)`.  The layout the repository uses,
`time.RFC3339Nano`, is modelled after the standard library; for any other
layout this model reports a parse error. -/
def timeParse (layout value : String) : Time × GoError :=
  if layout = RFC3339Nano then
    match GoTime.parseRFC3339Nano value.toList with
    | some t => (t, none)
    | none => (Time.zero, some (.ParseError layout value))
  else (Time.zero, some (.ParseError layout value))

/-! ## util/io.go -/

/-- Go `context.Context` as the pipeline observes it: `Err i` is the value of
`ctx.Err()` at the moment item `i` (counted from 0) has been pulled from the
source.  The channel `ctx.Done()` is closed exactly when `ctx.Err()` is
non-nil. -/
structure Context where
  Err : Nat → GoError

/-- Go `util.IO[T]`, a function `func(context.Context) (T, error)`; both
results are kept, as in Go. -/
abbrev IOFn (T : Type) := Context → T × GoError

/-- Go `util.Of`. -/
def Of {T : Type} (t : T) : IOFn T := fun _ => (t, none)

/-- Go `util.Bind`; `zero` is the zero value of `U`, the value of the named
result `u` that is returned with the error of `i`. -/
def Bind {T U : Type} (zero : U) (i : IOFn T) (f : T → IOFn U) : IOFn U := fun ctx =>
  match (i ctx).2 with
  | some e => (zero, some e)
  | none => f (i ctx).1 ctx

/-- Go `IO[T].OrElse`. -/
def IOFn.OrElse {T : Type} (i alt : IOFn T) : IOFn T := fun ctx =>
  match (i ctx).2 with
  | none => ((i ctx).1, none)
  | some _ => alt ctx

/-- Go `util.Lift`. -/
def Lift {T U : Type} (pure : T → U × GoError) : T → IOFn U := fun t _ => pure t

/-! ## output/avro/hamba/maps2avro.go: the field mapper -/

/-- The outcome of a Go call `v, e := f(m)` whose map argument is mutated in
place: the two results and the map after the call. -/
structure Call (α : Type) where
  val : α
  err : GoError
  m : GoMap

/-- Go `Mapper`. -/
structure Mapper where
  MapToTime : GoMap → Call Time
  MapToLevel : GoMap → Call String
  MapToBody : GoMap → Call Any

/-- Go `MapperConfig`. -/
structure MapperConfig where
  TimeConfig : IOFn String
  LevelConfig : IOFn String
  BodyConfig : IOFn String
  AnyToTime : Any → Time × GoError
  AnyToLevel : Any → String × GoError

/-- Go `TimeConfig`. -/
structure TimeConfig where
  Layout : String

def TimeConfigDefault : TimeConfig := { Layout := RFC3339Nano }

/-- Go `TimeConfig.ToParser`; `parse` is the library function `time.Parse`. -/
def TimeConfig.ToParser (parse : String → String → Time × GoError) (c : TimeConfig) :
    String → Time × GoError :=
  fun s => parse c.Layout s

/-- Go `TimeConfig.ToParserAny`. -/
def TimeConfig.ToParserAny (parse : String → String → Time × GoError) (c : TimeConfig) :
    Any → Time × GoError :=
  fun a =>
    match a with
    | .string t => c.ToParser parse t
    | t => (Time.zero, some (.wrapError ErrInvalidTime t))

/-- Go `ParseLevel`. -/
def ParseLevel (a : Any) : String × GoError :=
  match a with
  | .string t => (t, none)
  | t => ("", some (.wrapError ErrInvalidLevel t))

/-- Go `MapperConfig.ToMapper`. -/
def MapperConfig.ToMapper (c : MapperConfig) : IOFn Mapper := fun ctx =>
  let t := (c.TimeConfig ctx).1
  let te := (c.TimeConfig ctx).2
  let l := (c.LevelConfig ctx).1
  let le := (c.LevelConfig ctx).2
  let b := (c.BodyConfig ctx).1
  let be := (c.BodyConfig ctx).2
  ({ MapToTime := fun m =>
       match GoMap.find m t with
       | none => { val := Time.zero, err := some ErrNoTime, m := m }
       | some a =>
         { val := (c.AnyToTime a).1, err := (c.AnyToTime a).2, m := GoMap.delete m t }
     MapToLevel := fun m =>
       match GoMap.find m l with
       | none => { val := "", err := some ErrNoLevel, m := m }
       | some a =>
         { val := (c.AnyToLevel a).1, err := (c.AnyToLevel a).2, m := GoMap.delete m l }
     MapToBody := fun m =>
       match GoMap.find m b with
       | none => { val := Any.string "", err := none, m := m }
       | some a => { val := a, err := none, m := GoMap.delete m b } },
   errorsJoin [te, le, be])

/-- Go `MapperConfigNewDefault`; `parse` is the library function `time.Parse`. -/
def MapperConfigNewDefault (parse : String → String → Time × GoError)
    (timeKey levelKey bodyKey : IOFn String) : MapperConfig :=
  { TimeConfig := timeKey
    LevelConfig := levelKey
    BodyConfig := bodyKey
    AnyToTime := TimeConfigDefault.ToParserAny parse
    AnyToLevel := ParseLevel }

def TimeKeyDefault : IOFn String := Of "time"
def LevelKeyDefault : IOFn String := Of "level"
def BodyKeyDefault : IOFn String := Of "body"

def MapperConfigDefault : MapperConfig :=
  MapperConfigNewDefault timeParse TimeKeyDefault LevelKeyDefault BodyKeyDefault

def MapperDefault : IOFn Mapper := MapperConfigDefault.ToMapper

/-! ## output/avro/hamba/maps2avro.go: the driver -/

/-- Go `Logs`, an `iter.Seq2[StructuredLog, error]`: the finite sequence of
pairs the iterator hands to the loop body, in order.  The loop stops the
iterator when it returns, so an item is pulled only if the loop has not
returned before it. -/
abbrev Logs := List (StructuredLog × GoError)

/-- The operations of the Avro library (`hamba/avro` and its package `ocf`)
the driver calls, over an encoder state `σ`, schemas `S` and writers `W`. -/
structure Hamba (S W σ : Type) where
  Parse : String → Except Error S
  NewEncoderWithSchema : S → W → Except Error σ
  Encode : σ → GoMap → σ × GoError
  Flush : σ → σ × GoError
  Close : σ → σ × GoError

/-- The entry `map[string]any{"key": key, "val": val}` appended for one
remaining key of the record. -/
def attributeOf (kv : String × Any) : Any :=
  .map [("key", .string kv.1), ("val", kv.2)]

/-- The variables of `mapsToAvro` after lines 56-85 of one iteration: the row
buffer, the attribute slice, and the error of the extractor that failed
(`none` when the row was assembled); and two observations, the record as the
extractors that ran have left it and the number of extractor calls made. -/
structure RowResult where
  buf : GoMap
  attributes : List Any
  err : GoError
  row : StructuredLog
  calls : Nat

/-- Lines 56-85 of `mapsToAvro`: reset the buffers, run the three extractors
on the record and collect what is left of it. -/
def assembleRow (map2time : GoMap → Call Time) (map2level : GoMap → Call String)
    (map2message : GoMap → Call Any) (buf : GoMap) (attributes : List Any)
    (row : StructuredLog) : RowResult :=
  let buf := GoMap.clear buf
  let attributes := (attributes.map (fun _ => Any.null)).take 0
  let t := map2time row
  match t.err with
  | some e => { buf := buf, attributes := attributes, err := some e, row := t.m, calls := 1 }
  | none =>
    let buf := GoMap.store buf "time" (.int64 t.val.UnixMicro)
    let l := map2level t.m
    match l.err with
    | some e => { buf := buf, attributes := attributes, err := some e, row := l.m, calls := 2 }
    | none =>
      let buf := GoMap.store buf "level" (.string l.val)
      let b := map2message l.m
      match b.err with
      | some e => { buf := buf, attributes := attributes, err := some e, row := b.m, calls := 3 }
      | none =>
        let buf := GoMap.store buf "body" b.val
        let attributes := b.m.foldl (fun acc kv => acc ++ [attributeOf kv]) attributes
        { buf := GoMap.store buf "attributes" (.slice attributes)
          attributes := attributes
          err := none
          row := b.m
          calls := 3 }

/-- The state of the loop of `mapsToAvro`: the encoder, the two buffers that
live across iterations, and observations of the run: the arguments of the
`enc.Encode` calls made so far, the number of items pulled from the source,
the records of the pulled items as their iterations have left them, and the
number of extractor calls made so far. -/
structure LoopState (σ : Type) where
  enc : σ
  buf : GoMap
  attributes : List Any
  rows : List GoMap
  pulled : Nat
  records : List StructuredLog := []
  calls : Nat := 0

/-- One iteration of the loop of `mapsToAvro` (lines 45-91) on the pulled
item; the second component is the error the function returns from inside the
loop, `none` when the iteration runs to its end. -/
def loopBody {S W σ : Type} (O : Hamba S W σ) (ctx : Context)
    (map2time : GoMap → Call Time) (map2level : GoMap → Call String)
    (map2message : GoMap → Call Any) (st : LoopState σ)
    (item : StructuredLog × GoError) : LoopState σ × GoError :=
  let st1 := { st with pulled := st.pulled + 1 }
  match item.2 with
  | some e => ({ st1 with records := st.records ++ [item.1] }, some e)
  | none =>
    match ctx.Err st.pulled with
    | some e => ({ st1 with records := st.records ++ [item.1] }, some e)
    | none =>
      let r := assembleRow map2time map2level map2message st.buf st.attributes item.1
      match r.err with
      | some e =>
        ({ st1 with buf := r.buf, attributes := r.attributes,
                    records := st.records ++ [r.row], calls := st.calls + r.calls }, some e)
      | none =>
        let enc := O.Encode st.enc r.buf
        ({ enc := enc.1, buf := r.buf, attributes := r.attributes,
           rows := st.rows ++ [r.buf], pulled := st.pulled + 1,
           records := st.records ++ [r.row], calls := st.calls + r.calls }, enc.2)

/-- The loop of `mapsToAvro` over the source. -/
def loop {S W σ : Type} (O : Hamba S W σ) (ctx : Context)
    (map2time : GoMap → Call Time) (map2level : GoMap → Call String)
    (map2message : GoMap → Call Any) : LoopState σ → Logs → LoopState σ × GoError
  | st, [] => (st, none)
  | st, item :: rest =>
    match (loopBody O ctx map2time map2level map2message st item).2 with
    | some e => ((loopBody O ctx map2time map2level map2message st item).1, some e)
    | none =>
      loop O ctx map2time map2level map2message
        (loopBody O ctx map2time map2level map2message st item).1 rest

/-- What a run of `mapsToAvro` does: the returned error, the encoder after
the deferred `Close` (absent when no encoder was created), the rows handed to
`enc.Encode` in order, the number of items pulled from the source, the
records of the pulled items as the run has left them, and the number of
extractor calls made. -/
structure Outcome (σ : Type) where
  err : GoError
  enc : Option σ
  rows : List GoMap
  pulled : Nat
  records : List StructuredLog := []
  calls : Nat := 0

/-- Go `mapsToAvro`. -/
def mapsToAvro {S W σ : Type} (O : Hamba S W σ) (ctx : Context) (w : W) (s : S) (m : Logs)
    (map2time : GoMap → Call Time) (map2level : GoMap → Call String)
    (map2message : GoMap → Call Any) : Outcome σ :=
  match O.NewEncoderWithSchema s w with
  | .error e => { err := some e, enc := none, rows := [], pulled := 0 }
  | .ok enc =>
    let r := loop O ctx map2time map2level map2message
      { enc := enc, buf := [], attributes := [], rows := [], pulled := 0 } m
    match r.2 with
    | some e =>
      { err := some e, enc := some (O.Close r.1.enc).1, rows := r.1.rows, pulled := r.1.pulled,
        records := r.1.records, calls := r.1.calls }
    | none =>
      { err := (O.Flush r.1.enc).2, enc := some (O.Close (O.Flush r.1.enc).1).1,
        rows := r.1.rows, pulled := r.1.pulled, records := r.1.records, calls := r.1.calls }

/-- Go `MapsToAvro`. -/
def MapsToAvro {S W σ : Type} (O : Hamba S W σ) (ctx : Context) (w : W) (schema : String)
    (m : Logs) (mapper : Mapper) : Outcome σ :=
  match O.Parse schema with
  | .error e => { err := some e, enc := none, rows := [], pulled := 0 }
  | .ok s => mapsToAvro O ctx w s m mapper.MapToTime mapper.MapToLevel mapper.MapToBody

/-! ## cmd/jsonlogs2avro/main.go: the key configuration -/

/-- The environment of the process: Go `os.LookupEnv`, `none` when the
variable is not set. -/
abbrev Environ := String → Option String

/-- Go `GetEnvByKey`, reading the environment `lookupEnv`. -/
def GetEnvByKey (lookupEnv : Environ) (key : String) : IOFn String := fun _ =>
  match lookupEnv key with
  | none => ("", some (.errorString ("no value got for this key: " ++ key)))
  | some val => (val, none)

def timeConfig (lookupEnv : Environ) : IOFn String :=
  IOFn.OrElse (GetEnvByKey lookupEnv "ENV_TIME_KEY") TimeKeyDefault

def levelConfig (lookupEnv : Environ) : IOFn String :=
  IOFn.OrElse (GetEnvByKey lookupEnv "ENV_LEVEL_KEY") LevelKeyDefault

def bodyConfig (lookupEnv : Environ) : IOFn String :=
  IOFn.OrElse (GetEnvByKey lookupEnv "ENV_BODY_KEY") BodyKeyDefault

/-- Go `mapperConfig` of the command. -/
def mapperConfig (lookupEnv : Environ) : MapperConfig :=
  MapperConfigNewDefault timeParse (timeConfig lookupEnv) (levelConfig lookupEnv)
    (bodyConfig lookupEnv)

/-! ## input/json/std/reader2jsons.go: the record source -/

/-- Go `io.EOF`. -/
def ioEOF : Error := .errorString "EOF"

/-- Go `io.EOF == err`. -/
def isEOF (err : GoError) : Bool :=
  match err with
  | some e => Error.same ioEOF e
  | none => false

/-- The `*json.Decoder` built on the reader, over a decoder state `δ`:
`Decode d buf` is the call `dec.Decode(&buf)` in state `d`; it gives the
decoder after the call, the map variable after the call and the returned
error. -/
structure JsonDecoder (δ : Type) where
  Decode : δ → GoMap → δ × GoMap × GoError

/-- The consumer of a `Logs` sequence over a consumer state `κ`: the function
`yield` the iterator is called with.  It receives the map and the error of the
item, may mutate the map, and answers whether it wants more items. -/
abbrev Yield (κ : Type) := κ → StructuredLog → GoError → κ × StructuredLog × Bool

/-- The variables of the iterator returned by `ReaderToJsons`: the decoder,
the map `buf`, the state of the consumer, and an observation, the items handed
to `yield` so far. -/
structure ReadState (δ κ : Type) where
  dec : δ
  buf : GoMap
  consumer : κ
  items : List (StructuredLog × GoError) := []

/-- The iterator returned by Go `ReaderToJsons`, run against the consumer
`yield` for at most `fuel` iterations of its loop.  The Boolean tells whether
the iterator has returned within these iterations. -/
def ReaderToJsons {δ κ : Type} (D : JsonDecoder δ) (yield : Yield κ) :
    Nat → ReadState δ κ → ReadState δ κ × Bool
  | 0, st => (st, false)
  | fuel + 1, st =>
    let buf := GoMap.clear st.buf
    let r := D.Decode st.dec buf
    if isEOF r.2.2 = true then
      ({ st with dec := r.1, buf := r.2.1 }, true)
    else
      let y := yield st.consumer r.2.1 r.2.2
      let st1 : ReadState δ κ :=
        { dec := r.1, buf := y.2.1, consumer := y.1, items := st.items ++ [(r.2.1, r.2.2)] }
      if y.2.2 = false then (st1, true)
      else ReaderToJsons D yield fuel st1

/-- A decoder whose calls return the results of a list, one after the other,
and `io.EOF` when the list is used up. -/
def scriptedDecoder : JsonDecoder (List (GoMap × GoError)) :=
  { Decode := fun d buf =>
      match d with
      | [] => ([], buf, some ioEOF)
      | x :: rest => (rest, x.1, x.2) }

/-- A consumer that keeps every item it is handed and always asks for more. -/
def collectAll : Yield (List (StructuredLog × GoError)) :=
  fun k m e => (k ++ [(m, e)], m, true)

/-- A consumer that counts the items and stops at the first item that carries
an error, as the loop of `mapsToAvro` does. -/
def stopAtError : Yield Nat :=
  fun k m e => (k + 1, m, e.isNone)

/-! ## Reading a row -/

/-- The attribute entries of an assembled row: the elements of the slice
stored under `"attributes"`. -/
def rowAttributes (row : GoMap) : List Any :=
  match GoMap.find row "attributes" with
  | some (.slice xs) => xs
  | _ => []

/-- An encoder library that accepts every row and keeps nothing, used to run
the driver on concrete inputs. -/
def nullHamba : Hamba Unit Unit Unit :=
  { Parse := fun _ => .ok ()
    NewEncoderWithSchema := fun _ _ => .ok ()
    Encode := fun _ _ => ((), none)
    Flush := fun _ => ((), none)
    Close := fun _ => ((), none) }

/-- A context that is never cancelled (`context.Background()`). -/
def Background : Context := { Err := fun _ => none }

/-! ## Specification vocabulary -/

/-- The extraction sequence of the driver succeeds on a record: time, then
level on the record left by time, then body on the record left by level. -/
def ExtractsOk (f : GoMap → Call Time) (g : GoMap → Call String) (h : GoMap → Call Any)
    (r : StructuredLog) : Prop :=
  (f r).err = none ∧ (g (f r).m).err = none ∧ (h (g (f r).m).m).err = none

instance (f : GoMap → Call Time) (g : GoMap → Call String) (h : GoMap → Call Any)
    (r : StructuredLog) : Decidable (ExtractsOk f g h r) :=
  decidable_of_iff
    ((f r).err.isNone = true ∧ (g (f r).m).err.isNone = true ∧
      (h (g (f r).m).m).err.isNone = true)
    (by simp [ExtractsOk, Option.isNone_iff_eq_none])

/-- The record left when the three extractors have run. -/
def remaining (f : GoMap → Call Time) (g : GoMap → Call String) (h : GoMap → Call Any)
    (r : StructuredLog) : GoMap :=
  (h (g (f r).m).m).m

/-- The row the driver is expected to assemble from one record alone. -/
def expectedRow (f : GoMap → Call Time) (g : GoMap → Call String) (h : GoMap → Call Any)
    (r : StructuredLog) : GoMap :=
  [("time", .int64 (f r).val.UnixMicro),
   ("level", .string (g (f r).m).val),
   ("body", (h (g (f r).m).m).val),
   ("attributes", .slice ((remaining f g h r).map attributeOf))]

/-- The encoder state after the rows of a list have been encoded in order. -/
def encodeAll {S W σ : Type} (O : Hamba S W σ) (enc : σ) (rows : List GoMap) : σ :=
  rows.foldl (fun e row => (O.Encode e row).1) enc

/-- The key of an attribute entry. -/
def attrKey (a : Any) : Option String :=
  match a with
  | .map kvs =>
    match GoMap.find kvs "key" with
    | some (.string k) => some k
    | _ => none
  | _ => none

/-- The keys of the attribute entries of a row, in order. -/
def attributeKeys (row : GoMap) : List String :=
  (rowAttributes row).filterMap attrKey

/-- A source item whose record the loop turns into a row: the item carries no
error and the extraction sequence succeeds on its record. -/
def RecordOk (f : GoMap → Call Time) (g : GoMap → Call String) (h : GoMap → Call Any)
    (it : StructuredLog × GoError) : Prop :=
  it.2 = none ∧ ExtractsOk f g h it.1

/-- Encoding the rows of a list one after the other, from the encoder state
`enc` on, returns no error. -/
def EncodesOk {S W σ : Type} (O : Hamba S W σ) : σ → List GoMap → Prop
  | _, [] => True
  | enc, row :: rows => (O.Encode enc row).2 = none ∧ EncodesOk O (O.Encode enc row).1 rows

/-- The loop passes through a run of items that starts with the encoder in
state `enc`: every item carries no error, extraction succeeds on every
record, and every row is encoded without error. -/
def PassesOk {S W σ : Type} (O : Hamba S W σ) (f : GoMap → Call Time)
    (g : GoMap → Call String) (h : GoMap → Call Any) (enc : σ) (items : Logs) : Prop :=
  (∀ it ∈ items, RecordOk f g h it) ∧
    EncodesOk O enc (items.map fun it => expectedRow f g h it.1)

def scenarioRecord : StructuredLog :=
  [("time", .string "2024-01-02T03:04:05Z"), ("level", .string "INFO"),
   ("body", .string "hello"), ("user", .string "alice")]

def scenarioRow (t : Int) : GoMap :=
  [("time", .int64 t), ("level", .string "INFO"), ("body", .string "hello"),
   ("attributes", .slice [.map [("key", .string "user"), ("val", .string "alice")]])]

/-- Keys in lexicographic order. -/
def KeysSorted (ks : List String) : Prop := ks.Pairwise (fun a b => a ≤ b)

/-- A record whose map iteration visits the key `zone` before the key `app`. -/
def unsortedRecord : StructuredLog :=
  [("time", .string "2024-01-02T03:04:05Z"), ("level", .string "INFO"),
   ("zone", .string "eu"), ("app", .string "web")]

/-- The same map as `unsortedRecord`, iterated in another order. -/
def reorderedRecord : StructuredLog :=
  [("time", .string "2024-01-02T03:04:05Z"), ("level", .string "INFO"),
   ("app", .string "web"), ("zone", .string "eu")]

/-- A record whose time has microsecond digits. -/
def microRecord : StructuredLog :=
  [("time", .string "2024-01-02T03:04:05.123456Z"), ("level", .string "INFO")]

/-- A context that is cancelled from the moment item `k` is pulled. -/
def cancelledFrom (k : Nat) (e : Error) : Context :=
  { Err := fun i => if k ≤ i then some e else none }

/-- Go `context.Canceled`. -/
def Canceled : Error := .errorString "context canceled"

/-- The `*json.UnmarshalTypeError` of storing a JSON array in a map. -/
def arrayIntoMapError : Error :=
  .errorString
    "json: cannot unmarshal array into Go value of type map[string]interface \x7b\x7d"

/-- The results of the decoder on the input `[1] {"a":1}`: the array cannot
be stored in a map, which is an error of the value and not of the stream; the
object that follows is decoded. -/
def typeErrorThenRecord : List (GoMap × GoError) :=
  [([], some arrayIntoMapError), ([("a", .float64 4607182418800017408)], none)]

/-! ## Maps -/

namespace GoMap

theorem find_eq_none_iff (m : GoMap) (k : String) : find m k = none ↔ k ∉ keys m := by
  induction m with
  | nil => simp [find, keys]
  | cons kv rest ih =>
    obtain ⟨k', v⟩ := kv
    by_cases hk : k' = k
    · simp [find, keys, hk]
    · have hk2 : ¬ k = k' := fun h => hk h.symm
      simpa [find, keys, hk, hk2] using ih

theorem find_some_mem {m : GoMap} {k : String} {a : Any} (h : find m k = some a) :
    (k, a) ∈ m := by
  induction m with
  | nil => simp [find] at h
  | cons kv rest ih =>
    obtain ⟨k', v⟩ := kv
    by_cases hk : k' = k
    · simp [find, hk] at h; simp [hk, h]
    · simp [find, hk] at h; exact List.mem_cons_of_mem _ (ih h)

theorem mem_delete {m : GoMap} {k : String} {kv : String × Any} :
    kv ∈ delete m k ↔ kv ∈ m ∧ kv.1 ≠ k := by
  simp [delete]

theorem delete_cons (k0 : String) (v : Any) (rest : GoMap) (k : String) :
    delete ((k0, v) :: rest) k =
      if k0 = k then delete rest k else (k0, v) :: delete rest k := by
  by_cases hk : k0 = k <;> simp [delete, List.filter_cons, hk]

theorem find_delete_self (m : GoMap) (k : String) : find (delete m k) k = none := by
  rw [find_eq_none_iff]
  simp [keys, delete]

theorem find_delete_ne (m : GoMap) {k k' : String} (h : k' ≠ k) :
    find (delete m k) k' = find m k' := by
  induction m with
  | nil => simp [find, delete]
  | cons kv rest ih =>
    obtain ⟨k0, v⟩ := kv
    rw [delete_cons]
    by_cases hk : k0 = k
    · have hne : ¬ k = k' := fun e => h e.symm
      subst hk
      simp [find, ih, hne]
    · by_cases hk' : k0 = k'
      · subst hk'
        simp [find, hk]
      · simp [find, hk, hk', ih]

theorem delete_of_find_none {m : GoMap} {k : String} (h : find m k = none) :
    delete m k = m := by
  rw [find_eq_none_iff] at h
  simp only [delete, List.filter_eq_self]
  intro kv hkv
  simp only [ne_eq, decide_eq_true_eq]
  intro e
  exact h (by simp only [keys, List.mem_map]; exact ⟨kv, hkv, e⟩)

theorem keys_delete (m : GoMap) (k : String) :
    keys (delete m k) = (keys m).filter (fun x => decide (x ≠ k)) := by
  simp [keys, delete, List.filter_map, Function.comp_def]

theorem WF_delete {m : GoMap} (k : String) (h : WF m) : WF (delete m k) := by
  unfold WF at *
  rw [keys_delete]
  exact h.filter _

end GoMap

/-! ## The driver: one iteration -/

section Driver

variable {S W σ : Type} (O : Hamba S W σ) (ctx : Context)
variable (f : GoMap → Call Time) (g : GoMap → Call String) (h : GoMap → Call Any)

theorem foldl_attributes (l : GoMap) (init : List Any) :
    l.foldl (fun acc kv => acc ++ [attributeOf kv]) init = init ++ l.map attributeOf := by
  induction l generalizing init with
  | nil => simp
  | cons kv rest ih => simp [ih]

/-- The buffers left by earlier iterations do not reach the assembled row. -/
theorem assembleRow_fresh (buf : GoMap) (attrs : List Any) (r : StructuredLog) :
    assembleRow f g h buf attrs r = assembleRow f g h [] [] r := by
  simp [assembleRow, GoMap.clear]

theorem assembleRow_ok {r : StructuredLog} (hok : ExtractsOk f g h r) (buf : GoMap)
    (attrs : List Any) :
    assembleRow f g h buf attrs r =
      { buf := expectedRow f g h r
        attributes := (remaining f g h r).map attributeOf
        err := none
        row := remaining f g h r
        calls := 3 } := by
  obtain ⟨h1, h2, h3⟩ := hok
  simp [assembleRow, GoMap.clear, h1, h2, h3, foldl_attributes, expectedRow, remaining,
    GoMap.store]

theorem assembleRow_err_none_iff (r : StructuredLog) (buf : GoMap) (attrs : List Any) :
    (assembleRow f g h buf attrs r).err = none ↔ ExtractsOk f g h r := by
  constructor
  · intro he
    unfold assembleRow at he
    unfold ExtractsOk
    cases h1 : (f r).err with
    | some e => simp [h1] at he
    | none =>
      cases h2 : (g (f r).m).err with
      | some e => simp [h1, h2] at he
      | none =>
        cases h3 : (h (g (f r).m).m).err with
        | some e => simp [h1, h2, h3] at he
        | none => simp
  · intro hok
    rw [assembleRow_ok f g h hok]

theorem assembleRow_time_err {r : StructuredLog} {e : Error} (he : (f r).err = some e)
    (buf : GoMap) (attrs : List Any) :
    (assembleRow f g h buf attrs r).err = some e := by
  simp [assembleRow, he]

theorem loopBody_rows_of_ok (st : LoopState σ) (r : StructuredLog)
    (hctx : ctx.Err st.pulled = none) (hok : ExtractsOk f g h r) :
    loopBody O ctx f g h st (r, none) =
      ({ enc := (O.Encode st.enc (expectedRow f g h r)).1
         buf := expectedRow f g h r
         attributes := (remaining f g h r).map attributeOf
         rows := st.rows ++ [expectedRow f g h r]
         pulled := st.pulled + 1
         records := st.records ++ [remaining f g h r]
         calls := st.calls + 3 },
       (O.Encode st.enc (expectedRow f g h r)).2) := by
  simp [loopBody, hctx, assembleRow_ok f g h hok]

theorem loopBody_of_extract_err (st : LoopState σ) (r : StructuredLog)
    (hctx : ctx.Err st.pulled = none) {e : Error}
    (he : (assembleRow f g h st.buf st.attributes r).err = some e) :
    (loopBody O ctx f g h st (r, none)).2 = some e ∧
      (loopBody O ctx f g h st (r, none)).1.rows = st.rows ∧
      (loopBody O ctx f g h st (r, none)).1.pulled = st.pulled + 1 ∧
      (loopBody O ctx f g h st (r, none)).1.enc = st.enc := by
  simp [loopBody, hctx, he]

/-- The loop over a run of items it passes through: it reaches the items that
follow with every row encoded, in order. -/
theorem loop_append_ok (pre rest : Logs) (st : LoopState σ)
    (hpre : PassesOk O f g h st.enc pre)
    (hctx : ∀ i, st.pulled ≤ i → i < st.pulled + pre.length → ctx.Err i = none) :
    ∃ st1 : LoopState σ,
      loop O ctx f g h st (pre ++ rest) = loop O ctx f g h st1 rest ∧
      st1.enc = encodeAll O st.enc (pre.map fun it => expectedRow f g h it.1) ∧
      st1.rows = st.rows ++ pre.map (fun it => expectedRow f g h it.1) ∧
      st1.pulled = st.pulled + pre.length ∧
      st1.records = st.records ++ pre.map (fun it => remaining f g h it.1) ∧
      st1.calls = st.calls + 3 * pre.length := by
  induction pre generalizing st with
  | nil => exact ⟨st, by simp [encodeAll]⟩
  | cons it pre ih =>
    obtain ⟨r, e⟩ := it
    obtain ⟨⟨he, hok⟩, henc⟩ :
        RecordOk f g h (r, e) ∧ (O.Encode st.enc (expectedRow f g h r)).2 = none :=
      ⟨hpre.1 (r, e) (List.mem_cons_self _ _), hpre.2.1⟩
    simp only at he hok
    subst he
    have hc0 : ctx.Err st.pulled = none :=
      hctx st.pulled (le_refl _) (by simp)
    have hbody := loopBody_rows_of_ok O ctx f g h st r hc0 hok
    rw [henc] at hbody
    obtain ⟨st1, h1, h2, h3, h4, h5, h6⟩ := ih
      { enc := (O.Encode st.enc (expectedRow f g h r)).1
        buf := expectedRow f g h r
        attributes := (remaining f g h r).map attributeOf
        rows := st.rows ++ [expectedRow f g h r]
        pulled := st.pulled + 1
        records := st.records ++ [remaining f g h r]
        calls := st.calls + 3 }
      ⟨fun it hit => hpre.1 it (List.mem_cons_of_mem _ hit), hpre.2.2⟩
      (fun i hi1 hi2 => hctx i (by simp at hi1; omega)
        (by simp at hi2 ⊢; omega))
    refine ⟨st1, ?_, ?_, ?_, ?_, ?_, ?_⟩
    · simp only [List.cons_append, loop, hbody]
      exact h1
    · simp [h2, encodeAll]
    · simp [h3]
    · simp [h4]; omega
    · simp [h5]
    · simp [h6]; omega

end Driver

section DriverRows

variable {S W σ : Type} (O : Hamba S W σ) (ctx : Context)
variable (f : GoMap → Call Time) (g : GoMap → Call String) (h : GoMap → Call Any)

theorem loopBody_rows_extend (st : LoopState σ) (it : StructuredLog × GoError) :
    ∃ extra, (loopBody O ctx f g h st it).1.rows = st.rows ++ extra := by
  unfold loopBody
  cases it.2 with
  | some e => exact ⟨[], by simp⟩
  | none =>
    cases ctx.Err st.pulled with
    | some e => exact ⟨[], by simp⟩
    | none =>
      cases hr : (assembleRow f g h st.buf st.attributes it.1).err with
      | some e => exact ⟨[], by simp [hr]⟩
      | none => exact ⟨[(assembleRow f g h st.buf st.attributes it.1).buf], by simp [hr]⟩

theorem loop_rows_extend (m : Logs) (st : LoopState σ) :
    ∃ extra, (loop O ctx f g h st m).1.rows = st.rows ++ extra := by
  induction m generalizing st with
  | nil => exact ⟨[], by simp [loop]⟩
  | cons it rest ih =>
    obtain ⟨x1, h1⟩ := loopBody_rows_extend O ctx f g h st it
    unfold loop
    cases hb : (loopBody O ctx f g h st it).2 with
    | some e => exact ⟨x1, by simpa using h1⟩
    | none =>
      obtain ⟨x2, h2⟩ := ih (loopBody O ctx f g h st it).1
      exact ⟨x1 ++ x2, by simp [h2, h1]⟩

/-- The loop stops at an item on which time extraction fails: nothing is
encoded for it and nothing after it is pulled. -/
theorem loop_stop_at_time_err (st : LoopState σ) (r : StructuredLog) (rest : Logs)
    (hctx : ctx.Err st.pulled = none) {e : Error} (he : (f r).err = some e) :
    loop O ctx f g h st ((r, none) :: rest) =
      ({ st with pulled := st.pulled + 1, buf := [], attributes := [],
                 records := st.records ++ [(f r).m], calls := st.calls + 1 }, some e) := by
  simp [loop, loopBody, hctx, assembleRow, he, GoMap.clear]

end DriverRows

section MapperLemmas

variable (c : MapperConfig) (cc : Context)

theorem MapToTime_m (r : StructuredLog) :
    ((c.ToMapper cc).1.MapToTime r).m = GoMap.delete r (c.TimeConfig cc).1 := by
  simp only [MapperConfig.ToMapper]
  cases hf : GoMap.find r (c.TimeConfig cc).1 with
  | none => simp [GoMap.delete_of_find_none hf]
  | some a => simp

theorem MapToLevel_m (r : StructuredLog) :
    ((c.ToMapper cc).1.MapToLevel r).m = GoMap.delete r (c.LevelConfig cc).1 := by
  simp only [MapperConfig.ToMapper]
  cases hf : GoMap.find r (c.LevelConfig cc).1 with
  | none => simp [GoMap.delete_of_find_none hf]
  | some a => simp

theorem MapToBody_m (r : StructuredLog) :
    ((c.ToMapper cc).1.MapToBody r).m = GoMap.delete r (c.BodyConfig cc).1 := by
  simp only [MapperConfig.ToMapper]
  cases hf : GoMap.find r (c.BodyConfig cc).1 with
  | none => simp [GoMap.delete_of_find_none hf]
  | some a => simp

/-- What the three extractors of a mapper leave of a record: the entries
under other keys, in their order. -/
theorem remaining_mapper (r : StructuredLog) :
    remaining (c.ToMapper cc).1.MapToTime (c.ToMapper cc).1.MapToLevel
        (c.ToMapper cc).1.MapToBody r =
      r.filter (fun kv => decide (kv.1 ≠ (c.TimeConfig cc).1 ∧ kv.1 ≠ (c.LevelConfig cc).1 ∧
        kv.1 ≠ (c.BodyConfig cc).1)) := by
  simp only [remaining, MapToTime_m, MapToLevel_m, MapToBody_m, GoMap.delete, List.filter_filter]
  congr 1
  funext kv
  simp only [ne_eq, Bool.decide_and, Bool.and_assoc, decide_not]
  cases decide (kv.1 = (c.TimeConfig cc).1) <;> cases decide (kv.1 = (c.LevelConfig cc).1) <;>
    cases decide (kv.1 = (c.BodyConfig cc).1) <;> rfl

end MapperLemmas

section RowLemmas

variable (f : GoMap → Call Time) (g : GoMap → Call String) (h : GoMap → Call Any)

theorem rowAttributes_expectedRow (r : StructuredLog) :
    rowAttributes (expectedRow f g h r) = (remaining f g h r).map attributeOf := by
  simp [rowAttributes, expectedRow, GoMap.find]

theorem attrKey_attributeOf (kv : String × Any) : attrKey (attributeOf kv) = some kv.1 := by
  simp [attrKey, attributeOf, GoMap.find]

theorem attributeKeys_expectedRow (r : StructuredLog) :
    attributeKeys (expectedRow f g h r) = GoMap.keys (remaining f g h r) := by
  simp only [attributeKeys, rowAttributes_expectedRow, GoMap.keys, List.filterMap_map]
  induction remaining f g h r with
  | nil => rfl
  | cons kv rest ih => simp [List.filterMap_cons, attrKey_attributeOf, ih]

theorem attributeOf_injective : Function.Injective attributeOf := by
  intro a b hab
  obtain ⟨k1, v1⟩ := a
  obtain ⟨k2, v2⟩ := b
  simp [attributeOf] at hab
  simp [hab.1, hab.2]

end RowLemmas

namespace GoMap

theorem find_eq_some_iff_mem {m : GoMap} (hwf : WF m) (k : String) (v : Any) :
    find m k = some v ↔ (k, v) ∈ m := by
  constructor
  · exact find_some_mem
  · intro hmem
    induction m with
    | nil => simp at hmem
    | cons kv rest ih =>
      obtain ⟨k0, v0⟩ := kv
      have hnd : k0 ∉ keys rest ∧ (keys rest).Nodup := by
        simpa [WF, keys] using hwf
      rcases List.mem_cons.mp hmem with heq | htail
      · simp only [Prod.mk.injEq] at heq
        simp [find, heq.1, heq.2]
      · have hk : k0 ≠ k := by
          intro e
          subst e
          exact hnd.1 (by simp only [keys, List.mem_map]; exact ⟨(k0, v), htail, rfl⟩)
        simp only [find, hk, if_false]
        exact ih hnd.2 htail

/-- In a map that holds each key once, removing the keys of a set leaves as
many entries as the map has keys outside the set. -/
theorem length_filter_keys {m : GoMap} (hwf : WF m) (ks : Finset String) :
    (m.filter (fun kv => decide (kv.1 ∉ ks))).length =
      m.length - (ks ∩ (keys m).toFinset).card := by
  have h1 : (m.filter (fun kv => decide (kv.1 ∉ ks))).length =
      ((keys m).filter (fun k => decide (k ∉ ks))).length := by
    simp only [keys, List.filter_map, List.length_map]
    rfl
  have h2 : ((keys m).filter (fun k => decide (k ∉ ks))).length =
      ((keys m).toFinset \ ks).card := by
    rw [← List.toFinset_card_of_nodup (hwf.filter _)]
    congr 1
    ext k
    simp
  have h3 : m.length = (keys m).toFinset.card := by
    rw [List.toFinset_card_of_nodup hwf]
    simp [keys]
  have h4 := Finset.card_sdiff_add_card_inter (keys m).toFinset ks
  rw [h1, h2, h3, Finset.inter_comm ks]
  omega

end GoMap

section Runs

variable {S W σ : Type} (O : Hamba S W σ) (ctx : Context)
variable (f : GoMap → Call Time) (g : GoMap → Call String) (h : GoMap → Call Any)

theorem mapsToAvro_rows (w : W) (s : S) (enc : σ) (m : Logs)
    (hNew : O.NewEncoderWithSchema s w = .ok enc) :
    (mapsToAvro O ctx w s m f g h).rows =
      (loop O ctx f g h
        { enc := enc, buf := [], attributes := [], rows := [], pulled := 0 } m).1.rows := by
  unfold mapsToAvro
  simp only [hNew]
  split <;> rfl

/-- Every row the loop hands to the encoder is the row expected from a
record on which the extraction sequence succeeds. -/
theorem loop_rows_mem (m : Logs) (st : LoopState σ) (row : GoMap)
    (hrow : row ∈ (loop O ctx f g h st m).1.rows) :
    row ∈ st.rows ∨ ∃ it ∈ m, ExtractsOk f g h it.1 ∧ row = expectedRow f g h it.1 := by
  induction m generalizing st with
  | nil => left; simpa [loop] using hrow
  | cons it rest ih =>
    have hbody : ∀ x ∈ (loopBody O ctx f g h st it).1.rows,
        x ∈ st.rows ∨ (ExtractsOk f g h it.1 ∧ x = expectedRow f g h it.1) := by
      intro x hx
      unfold loopBody at hx
      cases h2 : it.2 with
      | some e => left; simpa [h2] using hx
      | none =>
        cases hc : ctx.Err st.pulled with
        | some e => left; simpa [h2, hc] using hx
        | none =>
          cases hr : (assembleRow f g h st.buf st.attributes it.1).err with
          | some e => left; simpa [h2, hc, hr] using hx
          | none =>
            have hok := (assembleRow_err_none_iff f g h it.1 st.buf st.attributes).mp hr
            simp only [h2, hc, hr, List.mem_append, List.mem_singleton] at hx
            rcases hx with hx | hx
            · left; exact hx
            · right
              refine ⟨hok, ?_⟩
              rw [hx, assembleRow_ok f g h hok]
    unfold loop at hrow
    cases hb : (loopBody O ctx f g h st it).2 with
    | some e =>
      simp only [hb] at hrow
      rcases hbody row hrow with h1 | h1
      · left; exact h1
      · right; exact ⟨it, List.mem_cons_self _ _, h1⟩
    | none =>
      simp only [hb] at hrow
      rcases ih _ hrow with h1 | ⟨it2, hit2, h2⟩
      · rcases hbody row h1 with h3 | h3
        · left; exact h3
        · right; exact ⟨it, List.mem_cons_self _ _, h3⟩
      · right; exact ⟨it2, List.mem_cons_of_mem _ hit2, h2⟩

/-- After a run of items the loop passes through, the next record on which
extraction succeeds yields the next row. -/
theorem mapsToAvro_row_at (w : W) (s : S) (enc : σ) (pre rest : Logs) (r : StructuredLog)
    (hNew : O.NewEncoderWithSchema s w = .ok enc)
    (hctx : ∀ i, i ≤ pre.length → ctx.Err i = none)
    (hpre : PassesOk O f g h enc pre)
    (hok : ExtractsOk f g h r) :
    (mapsToAvro O ctx w s (pre ++ (r, none) :: rest) f g h).rows[pre.length]? =
      some (expectedRow f g h r) := by
  rw [mapsToAvro_rows O ctx f g h w s enc _ hNew]
  obtain ⟨st1, h1, _, h3, h4⟩ := loop_append_ok O ctx f g h pre ((r, none) :: rest)
    { enc := enc, buf := [], attributes := [], rows := [], pulled := 0 } hpre
    (fun i _ hi => hctx i (by simp at hi; omega))
  simp only [List.nil_append, Nat.zero_add] at h3 h4
  have hc : ctx.Err st1.pulled = none := hctx _ (by omega)
  have hbody := loopBody_rows_of_ok O ctx f g h st1 r hc hok
  rw [h1]
  have hlen : st1.rows.length = pre.length := by simp [h3]
  unfold loop
  cases hb : (loopBody O ctx f g h st1 (r, none)).2 with
  | some e =>
    simp only [hbody]
    rw [List.getElem?_append_right (by omega)]
    simp [hlen]
  | none =>
    simp only []
    obtain ⟨extra, hx⟩ := loop_rows_extend O ctx f g h rest
      (loopBody O ctx f g h st1 (r, none)).1
    rw [hx, hbody]
    simp only [List.append_assoc]
    rw [List.getElem?_append_right (by omega)]
    simp [hlen]

end Runs

section Validity

variable (c : MapperConfig) (cc : Context)

/-- A record with a valid time and a valid level under two different keys
passes the extraction sequence of the mapper. -/
theorem extractsOk_of_valid (r : StructuredLog)
    (hne : (c.TimeConfig cc).1 ≠ (c.LevelConfig cc).1)
    (hT : ∃ a, GoMap.find r (c.TimeConfig cc).1 = some a ∧ (c.AnyToTime a).2 = none)
    (hL : ∃ a, GoMap.find r (c.LevelConfig cc).1 = some a ∧ (c.AnyToLevel a).2 = none) :
    ExtractsOk (c.ToMapper cc).1.MapToTime (c.ToMapper cc).1.MapToLevel
      (c.ToMapper cc).1.MapToBody r := by
  obtain ⟨a, ha, hat⟩ := hT
  obtain ⟨b, hb, hbl⟩ := hL
  have h1 : ((c.ToMapper cc).1.MapToTime r).err = none := by
    simp [MapperConfig.ToMapper, ha, hat]
  have h2 : ((c.ToMapper cc).1.MapToLevel ((c.ToMapper cc).1.MapToTime r).m).err = none := by
    rw [MapToTime_m]
    have hf : GoMap.find (GoMap.delete r (c.TimeConfig cc).1) (c.LevelConfig cc).1 = some b := by
      rw [GoMap.find_delete_ne r (Ne.symm hne), hb]
    simp [MapperConfig.ToMapper, hf, hbl]
  refine ⟨h1, h2, ?_⟩
  simp only [MapperConfig.ToMapper]
  split <;> rfl

/-- No key of the mapper is the key of an attribute of a row expected from
the mapper. -/
theorem keys_not_in_expectedRow (r : StructuredLog) :
    (c.TimeConfig cc).1 ∉ attributeKeys (expectedRow (c.ToMapper cc).1.MapToTime
        (c.ToMapper cc).1.MapToLevel (c.ToMapper cc).1.MapToBody r) ∧
    (c.LevelConfig cc).1 ∉ attributeKeys (expectedRow (c.ToMapper cc).1.MapToTime
        (c.ToMapper cc).1.MapToLevel (c.ToMapper cc).1.MapToBody r) ∧
    (c.BodyConfig cc).1 ∉ attributeKeys (expectedRow (c.ToMapper cc).1.MapToTime
        (c.ToMapper cc).1.MapToLevel (c.ToMapper cc).1.MapToBody r) := by
  rw [attributeKeys_expectedRow, remaining_mapper]
  simp only [GoMap.keys, List.mem_map, List.mem_filter, decide_eq_true_eq, not_exists, not_and]
  refine ⟨?_, ?_, ?_⟩
  · rintro kv ⟨_, h1, _, _⟩ e; exact h1 e
  · rintro kv ⟨_, _, h2, _⟩ e; exact h2 e
  · rintro kv ⟨_, _, _, h3⟩ e; exact h3 e

end Validity

/-! ## The scenario record -/

namespace GoMap

theorem WF_of_perm {m m2 : GoMap} (hp : m2.Perm m) (hwf : WF m) : WF m2 := by
  unfold WF keys at *
  exact (hp.map Prod.fst).nodup_iff.mpr hwf

/-- A lookup does not depend on the iteration order of the map. -/
theorem find_perm {m m2 : GoMap} (hp : m2.Perm m) (hwf : WF m) (k : String) :
    find m2 k = find m k := by
  cases hf : find m k with
  | none =>
    rw [find_eq_none_iff] at hf ⊢
    intro hk
    exact hf ((hp.map Prod.fst).mem_iff.mp hk)
  | some v =>
    rw [find_eq_some_iff_mem (WF_of_perm hp hwf)]
    exact hp.mem_iff.mpr (find_some_mem hf)

end GoMap

/-- The scenario record passes the default extraction sequence and yields the
scenario row, whatever the iteration order of its map. -/
theorem scenario_expectedRow (cc : Context) (r : StructuredLog) (hr : r.Perm scenarioRecord) :
    ExtractsOk (MapperDefault cc).1.MapToTime (MapperDefault cc).1.MapToLevel
      (MapperDefault cc).1.MapToBody r ∧
    expectedRow (MapperDefault cc).1.MapToTime (MapperDefault cc).1.MapToLevel
      (MapperDefault cc).1.MapToBody r = scenarioRow 1704164645000000 := by
  have hwf : GoMap.WF scenarioRecord := by simp [GoMap.WF, GoMap.keys, scenarioRecord]
  have hfind : ∀ k, GoMap.find r k = GoMap.find scenarioRecord k :=
    fun k => GoMap.find_perm hr hwf k
  have hT : GoMap.find r "time" = some (.string "2024-01-02T03:04:05Z") := by
    rw [hfind]; rfl
  have hL : GoMap.find (GoMap.delete r "time") "level" = some (.string "INFO") := by
    rw [GoMap.find_delete_ne r (by decide), hfind]; rfl
  have hB : GoMap.find (GoMap.delete (GoMap.delete r "time") "level") "body" =
      some (.string "hello") := by
    rw [GoMap.find_delete_ne _ (by decide), GoMap.find_delete_ne r (by decide), hfind]; rfl
  have hrem : remaining (MapperDefault cc).1.MapToTime (MapperDefault cc).1.MapToLevel
      (MapperDefault cc).1.MapToBody r = [("user", .string "alice")] := by
    have h1 := remaining_mapper MapperConfigDefault cc r
    have h2 : (r.filter (fun kv => decide (kv.1 ≠ "time" ∧ kv.1 ≠ "level" ∧
        kv.1 ≠ "body"))).Perm [("user", .string "alice")] :=
      (hr.filter _).trans (by simp [scenarioRecord, List.filter])
    exact h1.trans (List.perm_singleton.mp h2)
  have hTv : ((MapperDefault cc).1.MapToTime r) =
      { val := (timeParse RFC3339Nano "2024-01-02T03:04:05Z").1,
        err := (timeParse RFC3339Nano "2024-01-02T03:04:05Z").2,
        m := GoMap.delete r "time" } := by
    show (match GoMap.find r "time" with
      | none => _
      | some a => _) = _
    rw [hT]; rfl
  have hLv : ((MapperDefault cc).1.MapToLevel (GoMap.delete r "time")) =
      { val := "INFO", err := none, m := GoMap.delete (GoMap.delete r "time") "level" } := by
    show (match GoMap.find (GoMap.delete r "time") "level" with
      | none => _
      | some a => _) = _
    rw [hL]; rfl
  have hBv : ((MapperDefault cc).1.MapToBody (GoMap.delete (GoMap.delete r "time") "level")) =
      { val := .string "hello", err := none,
        m := GoMap.delete (GoMap.delete (GoMap.delete r "time") "level") "body" } := by
    show (match GoMap.find (GoMap.delete (GoMap.delete r "time") "level") "body" with
      | none => _
      | some a => _) = _
    rw [hB]; rfl
  constructor
  · refine ⟨?_, ?_, ?_⟩
    · rw [hTv]; rfl
    · rw [hTv, hLv]
    · rw [hTv, hLv, hBv]
  · unfold expectedRow
    rw [hrem, hTv, hLv, hBv]
    rfl

/-! ## Mapper construction -/

theorem errorsJoin_eq_none_iff (errs : List GoError) :
    errorsJoin errs = none ↔ ∀ e ∈ errs, e = none := by
  unfold errorsJoin
  constructor
  · intro hj
    cases hf : errs.filterMap id with
    | nil =>
      intro e he
      cases e with
      | none => rfl
      | some x =>
        have : x ∈ errs.filterMap id := List.mem_filterMap.mpr ⟨some x, he, rfl⟩
        rw [hf] at this
        simp at this
    | cons x xs => simp [hf] at hj
  · intro hall
    have : errs.filterMap id = [] := by
      rw [List.filterMap_eq_nil_iff]
      intro e he
      rw [hall e he]
      rfl
    simp [this]

theorem errorsJoin_mem (errs : List GoError) (e : Error) (he : some e ∈ errs) :
    ∃ es, errorsJoin errs = some (.joinError es) ∧ e ∈ es := by
  have hmem : e ∈ errs.filterMap id := List.mem_filterMap.mpr ⟨some e, he, rfl⟩
  unfold errorsJoin
  cases hf : errs.filterMap id with
  | nil => rw [hf] at hmem; simp at hmem
  | cons x xs => exact ⟨x :: xs, rfl, hf ▸ hmem⟩

/-! ## One key for time and level -/

section Coinciding

variable (c : MapperConfig) (cc : Context)

/-- With one key for time and level, level extraction fails after every
time extraction that found the key. -/
theorem level_after_time_coinciding (hTL : (c.TimeConfig cc).1 = (c.LevelConfig cc).1)
    (r : StructuredLog) :
    ((c.ToMapper cc).1.MapToLevel ((c.ToMapper cc).1.MapToTime r).m).err = some ErrNoLevel := by
  have hf : GoMap.find (GoMap.delete r (c.TimeConfig cc).1) (c.LevelConfig cc).1 = none := by
    rw [← hTL]
    exact GoMap.find_delete_self r _
  rw [MapToTime_m]
  simp [MapperConfig.ToMapper, hf]

theorem not_extractsOk_coinciding (hTL : (c.TimeConfig cc).1 = (c.LevelConfig cc).1)
    (r : StructuredLog) :
    ¬ ExtractsOk (c.ToMapper cc).1.MapToTime (c.ToMapper cc).1.MapToLevel
      (c.ToMapper cc).1.MapToBody r := by
  rintro ⟨_, h2, _⟩
  rw [level_after_time_coinciding c cc hTL r] at h2
  exact absurd h2 (by simp)

end Coinciding

/-! ## The driver: returns from inside the loop -/

section Stops

variable {S W σ : Type} (O : Hamba S W σ) (ctx : Context)
variable (f : GoMap → Call Time) (g : GoMap → Call String) (h : GoMap → Call Any)

/-- The loop returns the error of an item that carries one, before anything
else is done with the item. -/
theorem loop_stop_at_source_err (st : LoopState σ) (x : StructuredLog) (e : Error)
    (rest : Logs) :
    loop O ctx f g h st ((x, some e) :: rest) =
      ({ st with pulled := st.pulled + 1, records := st.records ++ [x] }, some e) := by
  simp [loop, loopBody]

/-- The loop returns the error of the context when the context is done at an
error-free item, before any extractor runs. -/
theorem loop_stop_at_cancel (st : LoopState σ) (x : StructuredLog) (e : Error)
    (rest : Logs) (hctx : ctx.Err st.pulled = some e) :
    loop O ctx f g h st ((x, none) :: rest) =
      ({ st with pulled := st.pulled + 1, records := st.records ++ [x] }, some e) := by
  simp [loop, loopBody, hctx]

/-- A run that passes through the items `pre` and then returns `e` from inside
the loop at the next item, leaving its record `x` as it was pulled. -/
theorem mapsToAvro_stop (w : W) (s : S) (enc : σ) (pre tail : Logs) (x : StructuredLog)
    (e : Error)
    (hNew : O.NewEncoderWithSchema s w = .ok enc)
    (hctx : ∀ i, i < pre.length → ctx.Err i = none)
    (hpre : PassesOk O f g h enc pre)
    (hstop : ∀ st : LoopState σ, st.pulled = pre.length →
      loop O ctx f g h st tail =
        ({ st with pulled := st.pulled + 1, records := st.records ++ [x] }, some e)) :
    mapsToAvro O ctx w s (pre ++ tail) f g h =
      { err := some e
        enc := some (O.Close (encodeAll O enc (pre.map fun it => expectedRow f g h it.1))).1
        rows := pre.map (fun it => expectedRow f g h it.1)
        pulled := pre.length + 1
        records := pre.map (fun it => remaining f g h it.1) ++ [x]
        calls := 3 * pre.length } := by
  obtain ⟨st1, h1, h2, h3, h4, h5, h6⟩ := loop_append_ok O ctx f g h pre tail
    { enc := enc, buf := [], attributes := [], rows := [], pulled := 0 } hpre
    (fun i _ hi => hctx i (by simpa using hi))
  simp only [List.nil_append, Nat.zero_add] at h3 h4 h5 h6
  unfold mapsToAvro
  simp only [hNew, h1, hstop st1 h4, h2, h3, h4, h5, h6]

end Stops

/-! ## The record source -/

section Reader

variable {δ κ : Type} (D : JsonDecoder δ) (yield : Yield κ)

/-- One iteration of the iterator at a clean end of input: it returns and
hands nothing to the consumer. -/
theorem ReaderToJsons_eof (fuel : Nat) (st : ReadState δ κ)
    (heof : isEOF (D.Decode st.dec []).2.2 = true) :
    ReaderToJsons D yield (fuel + 1) st =
      ({ st with dec := (D.Decode st.dec []).1, buf := (D.Decode st.dec []).2.1 }, true) := by
  simp [ReaderToJsons, GoMap.clear, heof]

/-- One iteration of the iterator at a decode error, against a consumer that
stops there: the error is handed to the consumer and the iterator returns. -/
theorem ReaderToJsons_error (fuel : Nat) (st : ReadState δ κ) (e : Error)
    (he : (D.Decode st.dec []).2.2 = some e) (hne : isEOF (some e) = false)
    (hstop : (yield st.consumer (D.Decode st.dec []).2.1 (some e)).2.2 = false) :
    ReaderToJsons D yield (fuel + 1) st =
      ({ dec := (D.Decode st.dec []).1
         buf := (yield st.consumer (D.Decode st.dec []).2.1 (some e)).2.1
         consumer := (yield st.consumer (D.Decode st.dec []).2.1 (some e)).1
         items := st.items ++ [((D.Decode st.dec []).2.1, some e)] }, true) := by
  simp [ReaderToJsons, GoMap.clear, he, hne, hstop]

/-- One iteration of the iterator when the consumer, handed the item, does
not want more: the iterator returns. -/
theorem ReaderToJsons_stop (fuel : Nat) (st : ReadState δ κ)
    (hne : isEOF (D.Decode st.dec []).2.2 = false)
    (hy : (yield st.consumer (D.Decode st.dec []).2.1 (D.Decode st.dec []).2.2).2.2 = false) :
    ReaderToJsons D yield (fuel + 1) st =
      ({ dec := (D.Decode st.dec []).1
         buf := (yield st.consumer (D.Decode st.dec []).2.1 (D.Decode st.dec []).2.2).2.1
         consumer := (yield st.consumer (D.Decode st.dec []).2.1 (D.Decode st.dec []).2.2).1
         items := st.items ++ [((D.Decode st.dec []).2.1, (D.Decode st.dec []).2.2)] },
       true) := by
  simp [ReaderToJsons, GoMap.clear, hne, hy]

/-- One iteration of the iterator when the consumer, handed the item, wants
more: the loop goes on. -/
theorem ReaderToJsons_continue (fuel : Nat) (st : ReadState δ κ)
    (hne : isEOF (D.Decode st.dec []).2.2 = false)
    (hy : (yield st.consumer (D.Decode st.dec []).2.1 (D.Decode st.dec []).2.2).2.2 = true) :
    ReaderToJsons D yield (fuel + 1) st =
      ReaderToJsons D yield fuel
        { dec := (D.Decode st.dec []).1
          buf := (yield st.consumer (D.Decode st.dec []).2.1 (D.Decode st.dec []).2.2).2.1
          consumer := (yield st.consumer (D.Decode st.dec []).2.1 (D.Decode st.dec []).2.2).1
          items := st.items ++ [((D.Decode st.dec []).2.1, (D.Decode st.dec []).2.2)] } := by
  simp [ReaderToJsons, GoMap.clear, hne, hy]

/-- Against a consumer that stops at every item with an error, only the last
item handed over can carry an error, and no item carries `io.EOF`. -/
theorem ReaderToJsons_items (hstop : ∀ k m e, (yield k m (some e)).2.2 = false)
    (fuel : Nat) (st : ReadState δ κ)
    (h1 : ∀ it ∈ st.items, it.2 = none) :
    (∀ it ∈ (ReaderToJsons D yield fuel st).1.items.dropLast, it.2 = none) ∧
    ((∀ it ∈ st.items, isEOF it.2 = false) →
      ∀ it ∈ (ReaderToJsons D yield fuel st).1.items, isEOF it.2 = false) := by
  induction fuel generalizing st with
  | zero =>
    refine ⟨fun it hit => h1 it (List.mem_of_mem_dropLast hit), fun h2 => ?_⟩
    simpa [ReaderToJsons] using h2
  | succ fuel ih =>
    cases heof : isEOF (D.Decode st.dec []).2.2 with
    | true =>
      rw [ReaderToJsons_eof D yield fuel st heof]
      exact ⟨fun it hit => h1 it (List.mem_of_mem_dropLast hit), fun h2 => h2⟩
    | false =>
      have hnew : ∀ it ∈ st.items ++ [((D.Decode st.dec []).2.1, (D.Decode st.dec []).2.2)],
          (∀ x ∈ st.items, isEOF x.2 = false) → isEOF it.2 = false := by
        intro it hit h2
        rcases List.mem_append.mp hit with hit | hit
        · exact h2 it hit
        · simp only [List.mem_singleton] at hit
          rw [hit]
          exact heof
      cases hy : (yield st.consumer (D.Decode st.dec []).2.1 (D.Decode st.dec []).2.2).2.2 with
      | false =>
        rw [ReaderToJsons_stop D yield fuel st heof hy]
        refine ⟨fun it hit => ?_, fun h2 it hit => hnew it hit h2⟩
        simp only [List.dropLast_concat] at hit
        exact h1 it hit
      | true =>
        rw [ReaderToJsons_continue D yield fuel st heof hy]
        have hnone : (D.Decode st.dec []).2.2 = none := by
          cases he : (D.Decode st.dec []).2.2 with
          | none => rfl
          | some e =>
            rw [he, hstop _ _ e] at hy
            exact absurd hy (by simp)
        have hinv : ∀ it ∈ st.items ++ [((D.Decode st.dec []).2.1,
            (D.Decode st.dec []).2.2)], it.2 = none := by
          intro it hit
          rcases List.mem_append.mp hit with hit | hit
          · exact h1 it hit
          · simp only [List.mem_singleton] at hit
            rw [hit]
            exact hnone
        obtain ⟨r1, r2⟩ := ih
          { dec := (D.Decode st.dec []).1
            buf := (yield st.consumer (D.Decode st.dec []).2.1 (D.Decode st.dec []).2.2).2.1
            consumer := (yield st.consumer (D.Decode st.dec []).2.1
              (D.Decode st.dec []).2.2).1
            items := st.items ++ [((D.Decode st.dec []).2.1, (D.Decode st.dec []).2.2)] }
          hinv
        exact ⟨r1, fun h2 => r2 (fun it hit => hnew it hit h2)⟩

end Reader

/-- On a finite input the iterator returns: one iteration for each result of
the decoder and one for the end of input are enough, whatever the consumer. -/
theorem ReaderToJsons_scripted_returns {κ : Type} (yield : Yield κ)
    (script : List (GoMap × GoError)) (buf : GoMap) (k : κ)
    (items : List (StructuredLog × GoError)) :
    (ReaderToJsons scriptedDecoder yield (script.length + 1)
      { dec := script, buf := buf, consumer := k, items := items }).2 = true := by
  induction script generalizing buf k items with
  | nil => simp [ReaderToJsons, scriptedDecoder, isEOF, ioEOF, Error.same]
  | cons x rest ih =>
    unfold ReaderToJsons
    simp only [List.length_cons]
    split
    · rfl
    · split
      · rfl
      · exact ih _ _ _

/-! ## The claims -/

/-- Claim C1 as stated, refuted: for the default mapper and the single record
`{"time":"2024-01-02T03:04:05Z","level":"INFO","body":"hello","user":"alice"}`
the row handed to the encoder is not the row with time `1704168245000000`
(that number is 04:04:05Z, one hour after the instant of the record): its
time is `1704164645000000`. -/
theorem C1_counterexample :
    (mapsToAvro nullHamba Background () () [(scenarioRecord, none)]
      (MapperDefault Background).1.MapToTime (MapperDefault Background).1.MapToLevel
      (MapperDefault Background).1.MapToBody).rows ≠ [scenarioRow 1704168245000000] ∧
    (mapsToAvro nullHamba Background () () [(scenarioRecord, none)]
      (MapperDefault Background).1.MapToTime (MapperDefault Background).1.MapToLevel
      (MapperDefault Background).1.MapToBody).rows.map (fun row => GoMap.find row "time") =
      [some (.int64 1704164645000000)] := by
  have hrun : (mapsToAvro nullHamba Background () () [(scenarioRecord, none)]
      (MapperDefault Background).1.MapToTime (MapperDefault Background).1.MapToLevel
      (MapperDefault Background).1.MapToBody).rows = [scenarioRow 1704164645000000] := rfl
  rw [hrun]
  refine ⟨?_, rfl⟩
  intro hEq
  simp [scenarioRow] at hEq

/-- Claim C1, amended: for the mapper built from the default configuration,
every encoder library whose encoder opens, and no cancellation at the first
record, `mapsToAvro` on the single scenario record (its map iterated in any
order) hands the encoder exactly the row `{time: 1704164645000000,
level: "INFO", body: "hello", attributes: [{key: "user", val: "alice"}]}`. -/
theorem C1_scenario_row {S W σ : Type} (O : Hamba S W σ) (ctx cc : Context) (w : W) (s : S)
    (enc : σ) (r : StructuredLog) (hr : r.Perm scenarioRecord)
    (hNew : O.NewEncoderWithSchema s w = .ok enc) (hctx : ctx.Err 0 = none) :
    (mapsToAvro O ctx w s [(r, none)]
      (MapperDefault cc).1.MapToTime (MapperDefault cc).1.MapToLevel
      (MapperDefault cc).1.MapToBody).rows = [scenarioRow 1704164645000000] := by
  obtain ⟨hok, hrow⟩ := scenario_expectedRow cc r hr
  rw [mapsToAvro_rows O ctx _ _ _ w s enc _ hNew]
  simp only [loop]
  rw [loopBody_rows_of_ok O ctx _ _ _ _ r hctx hok, hrow]
  cases (O.Encode enc (scenarioRow 1704164645000000)).2 <;> rfl

/-- Claim C1, amended, at the encoder library that accepts every row and the
record iterated with `user` first. -/
theorem C1_scenario_row_witness :
    (mapsToAvro nullHamba Background () ()
      [([("user", .string "alice"), ("time", .string "2024-01-02T03:04:05Z"),
         ("level", .string "INFO"), ("body", .string "hello")], none)]
      (MapperDefault Background).1.MapToTime (MapperDefault Background).1.MapToLevel
      (MapperDefault Background).1.MapToBody).rows = [scenarioRow 1704164645000000] :=
  C1_scenario_row nullHamba Background Background () () ()
    [("user", .string "alice"), ("time", .string "2024-01-02T03:04:05Z"),
     ("level", .string "INFO"), ("body", .string "hello")]
    (by
      unfold scenarioRecord
      exact ((List.Perm.swap _ _ _).trans ((List.Perm.swap _ _ _).cons _)).trans
        (((List.Perm.swap _ _ _).cons _).cons _))
    rfl rfl

/-- Claim C2 (fail-fast): when the first `K-1` items of the source pass
through the loop (error-free, extraction and encoding succeed), item `K` is an
error-free record without the configured time key and nothing is cancelled,
`mapsToAvro` returns `ErrNoTime`, has handed the encoder exactly the `K-1`
rows of the earlier records, has pulled `K` items, and its whole outcome does
not depend on the items after item `K`. -/
theorem C2_fail_fast {S W σ : Type} (O : Hamba S W σ) (ctx cc : Context) (w : W) (s : S)
    (enc : σ) (c : MapperConfig) (pre rest : Logs) (bad : StructuredLog)
    (hNew : O.NewEncoderWithSchema s w = .ok enc)
    (hctx : ∀ i, ctx.Err i = none)
    (hpre : PassesOk O (c.ToMapper cc).1.MapToTime (c.ToMapper cc).1.MapToLevel
      (c.ToMapper cc).1.MapToBody enc pre)
    (hbad : GoMap.find bad (c.TimeConfig cc).1 = none) :
    (mapsToAvro O ctx w s (pre ++ (bad, none) :: rest) (c.ToMapper cc).1.MapToTime
        (c.ToMapper cc).1.MapToLevel (c.ToMapper cc).1.MapToBody).err = some ErrNoTime ∧
    (mapsToAvro O ctx w s (pre ++ (bad, none) :: rest) (c.ToMapper cc).1.MapToTime
        (c.ToMapper cc).1.MapToLevel (c.ToMapper cc).1.MapToBody).rows =
      pre.map (fun it => expectedRow (c.ToMapper cc).1.MapToTime
        (c.ToMapper cc).1.MapToLevel (c.ToMapper cc).1.MapToBody it.1) ∧
    (mapsToAvro O ctx w s (pre ++ (bad, none) :: rest) (c.ToMapper cc).1.MapToTime
        (c.ToMapper cc).1.MapToLevel (c.ToMapper cc).1.MapToBody).rows.length = pre.length ∧
    (mapsToAvro O ctx w s (pre ++ (bad, none) :: rest) (c.ToMapper cc).1.MapToTime
        (c.ToMapper cc).1.MapToLevel (c.ToMapper cc).1.MapToBody).pulled = pre.length + 1 ∧
    mapsToAvro O ctx w s (pre ++ (bad, none) :: rest) (c.ToMapper cc).1.MapToTime
        (c.ToMapper cc).1.MapToLevel (c.ToMapper cc).1.MapToBody =
      mapsToAvro O ctx w s (pre ++ [(bad, none)]) (c.ToMapper cc).1.MapToTime
        (c.ToMapper cc).1.MapToLevel (c.ToMapper cc).1.MapToBody := by
  have hT : ((c.ToMapper cc).1.MapToTime bad).err = some ErrNoTime := by
    simp [MapperConfig.ToMapper, hbad]
  have key : ∀ tail : Logs, ∃ st1 : LoopState σ,
      loop O ctx (c.ToMapper cc).1.MapToTime (c.ToMapper cc).1.MapToLevel
        (c.ToMapper cc).1.MapToBody
        { enc := enc, buf := [], attributes := [], rows := [], pulled := 0 }
        (pre ++ (bad, none) :: tail) =
        ({ st1 with pulled := st1.pulled + 1, buf := [], attributes := [],
                    records := st1.records ++ [((c.ToMapper cc).1.MapToTime bad).m],
                    calls := st1.calls + 1 }, some ErrNoTime) ∧
      st1.enc = encodeAll O enc (pre.map fun it => expectedRow (c.ToMapper cc).1.MapToTime
        (c.ToMapper cc).1.MapToLevel (c.ToMapper cc).1.MapToBody it.1) ∧
      st1.rows = pre.map (fun it => expectedRow (c.ToMapper cc).1.MapToTime
        (c.ToMapper cc).1.MapToLevel (c.ToMapper cc).1.MapToBody it.1) ∧
      st1.pulled = pre.length ∧
      st1.records = pre.map (fun it => remaining (c.ToMapper cc).1.MapToTime
        (c.ToMapper cc).1.MapToLevel (c.ToMapper cc).1.MapToBody it.1) ∧
      st1.calls = 3 * pre.length := by
    intro tail
    obtain ⟨st1, h1, h2, h3, h4, h5, h6⟩ := loop_append_ok O ctx _ _ _ pre
      ((bad, none) :: tail)
      { enc := enc, buf := [], attributes := [], rows := [], pulled := 0 } hpre
      (fun i _ _ => hctx i)
    refine ⟨st1, ?_, h2, by simpa using h3, by simpa using h4, by simpa using h5,
      by simpa using h6⟩
    rw [h1, loop_stop_at_time_err O ctx _ _ _ st1 bad tail (hctx _) hT]
  obtain ⟨st1, h1, h2, h3, h4, h5, h6⟩ := key rest
  obtain ⟨st2, k1, k2, k3, k4, k5, k6⟩ := key []
  have hout : ∀ tail : Logs, ∀ st : LoopState σ,
      loop O ctx (c.ToMapper cc).1.MapToTime (c.ToMapper cc).1.MapToLevel
        (c.ToMapper cc).1.MapToBody
        { enc := enc, buf := [], attributes := [], rows := [], pulled := 0 }
        (pre ++ (bad, none) :: tail) =
        ({ st with pulled := st.pulled + 1, buf := [], attributes := [],
                   records := st.records ++ [((c.ToMapper cc).1.MapToTime bad).m],
                   calls := st.calls + 1 }, some ErrNoTime) →
      mapsToAvro O ctx w s (pre ++ (bad, none) :: tail) (c.ToMapper cc).1.MapToTime
        (c.ToMapper cc).1.MapToLevel (c.ToMapper cc).1.MapToBody =
      { err := some ErrNoTime, enc := some (O.Close st.enc).1, rows := st.rows,
        pulled := st.pulled + 1,
        records := st.records ++ [((c.ToMapper cc).1.MapToTime bad).m],
        calls := st.calls + 1 } := by
    intro tail st hl
    unfold mapsToAvro
    simp only [hNew, hl]
  rw [hout rest st1 h1, hout [] st2 k1]
  refine ⟨rfl, h3, by simp [h3], by simp [h4], ?_⟩
  simp [h2, h3, h4, h5, h6, k2, k3, k4, k5, k6]

/-- Claim C2 at a source of three records whose second record,
`{"level":"WARN","x":1}`, has no time key. -/
theorem C2_fail_fast_witness :
    (mapsToAvro nullHamba Background () ()
        ([(scenarioRecord, none)] ++
          ([("level", .string "WARN"), ("x", .float64 4607182418800017408)], none) ::
            [(scenarioRecord, none)])
        (MapperConfigDefault.ToMapper Background).1.MapToTime
        (MapperConfigDefault.ToMapper Background).1.MapToLevel
        (MapperConfigDefault.ToMapper Background).1.MapToBody).err = some ErrNoTime :=
  (C2_fail_fast nullHamba Background Background () () () MapperConfigDefault
    [(scenarioRecord, none)] [(scenarioRecord, none)]
    [("level", .string "WARN"), ("x", .float64 4607182418800017408)] rfl (fun _ => rfl)
    ⟨by
      intro it hit
      simp only [List.mem_singleton] at hit
      subst hit
      exact ⟨rfl, rfl, rfl, rfl⟩, rfl, trivial⟩
    rfl).1

/-- Claim C3 (completeness): a record `r` that holds each key once and on
which the three extractors of a mapper succeed, placed after any run of
records the loop passes through, yields a row whose attribute list is the
list of the entries of `r` under keys other than the three configured keys:
it has `N - |{Tk, Lk, Bk} ∩ keys r|` entries, its keys are exactly the other
keys of `r`, each once, each with the value `r` holds for it. -/
theorem C3_completeness {S W σ : Type} (O : Hamba S W σ) (ctx cc : Context) (w : W) (s : S)
    (enc : σ) (c : MapperConfig) (pre rest : Logs) (r : StructuredLog)
    (hNew : O.NewEncoderWithSchema s w = .ok enc)
    (hctx : ∀ i, i ≤ pre.length → ctx.Err i = none)
    (hpre : PassesOk O (c.ToMapper cc).1.MapToTime (c.ToMapper cc).1.MapToLevel
      (c.ToMapper cc).1.MapToBody enc pre)
    (hwf : GoMap.WF r)
    (hok : ExtractsOk (c.ToMapper cc).1.MapToTime (c.ToMapper cc).1.MapToLevel
      (c.ToMapper cc).1.MapToBody r) :
    ∃ row : GoMap,
      (mapsToAvro O ctx w s (pre ++ (r, none) :: rest) (c.ToMapper cc).1.MapToTime
        (c.ToMapper cc).1.MapToLevel (c.ToMapper cc).1.MapToBody).rows[pre.length]? = some row ∧
      rowAttributes row =
        (r.filter (fun kv => decide (kv.1 ≠ (c.TimeConfig cc).1 ∧
          kv.1 ≠ (c.LevelConfig cc).1 ∧ kv.1 ≠ (c.BodyConfig cc).1))).map attributeOf ∧
      (rowAttributes row).length =
        r.length - (({(c.TimeConfig cc).1, (c.LevelConfig cc).1, (c.BodyConfig cc).1} :
          Finset String) ∩ (GoMap.keys r).toFinset).card ∧
      (attributeKeys row).Nodup ∧
      (∀ k, k ∈ attributeKeys row ↔
        k ∈ GoMap.keys r ∧ k ≠ (c.TimeConfig cc).1 ∧ k ≠ (c.LevelConfig cc).1 ∧
          k ≠ (c.BodyConfig cc).1) ∧
      (∀ k v, attributeOf (k, v) ∈ rowAttributes row ↔
        GoMap.find r k = some v ∧ k ≠ (c.TimeConfig cc).1 ∧ k ≠ (c.LevelConfig cc).1 ∧
          k ≠ (c.BodyConfig cc).1) := by
  refine ⟨_, mapsToAvro_row_at O ctx _ _ _ w s enc pre rest r hNew hctx hpre hok,
    ?_, ?_, ?_, ?_, ?_⟩
  · rw [rowAttributes_expectedRow, remaining_mapper]
  · rw [rowAttributes_expectedRow, remaining_mapper, List.length_map,
      ← GoMap.length_filter_keys hwf]
    congr 2
    funext kv
    simp
  · rw [attributeKeys_expectedRow, remaining_mapper]
    exact List.Nodup.sublist ((List.filter_sublist _).map _) hwf
  · intro k
    rw [attributeKeys_expectedRow, remaining_mapper]
    simp only [GoMap.keys, List.mem_map, List.mem_filter, decide_eq_true_eq]
    constructor
    · rintro ⟨kv, ⟨hkv, hne⟩, rfl⟩
      exact ⟨⟨kv, hkv, rfl⟩, hne⟩
    · rintro ⟨⟨kv, hkv, rfl⟩, hne⟩
      exact ⟨kv, ⟨hkv, hne⟩, rfl⟩
  · intro k v
    rw [rowAttributes_expectedRow, remaining_mapper,
      List.mem_map_of_injective attributeOf_injective, GoMap.find_eq_some_iff_mem hwf]
    simp [List.mem_filter]

/-- Claim C3 at a record with four keys standing second in the source. -/
theorem C3_completeness_witness :
    ∃ row : GoMap,
      (mapsToAvro nullHamba Background () () ([(scenarioRecord, none)] ++
          (unsortedRecord, none) :: [])
        (MapperConfigDefault.ToMapper Background).1.MapToTime
        (MapperConfigDefault.ToMapper Background).1.MapToLevel
        (MapperConfigDefault.ToMapper Background).1.MapToBody).rows[1]? = some row ∧
      (rowAttributes row).length = 2 := by
  obtain ⟨row, h1, h2, -⟩ := C3_completeness nullHamba Background Background () () ()
    MapperConfigDefault [(scenarioRecord, none)] [] unsortedRecord rfl (fun _ _ => rfl)
    ⟨by
      intro it hit
      simp only [List.mem_singleton] at hit
      subst hit
      exact ⟨rfl, rfl, rfl, rfl⟩, rfl, trivial⟩
    (by simp [GoMap.WF, GoMap.keys, unsortedRecord])
    ⟨rfl, rfl, rfl⟩
  exact ⟨row, h1, by rw [h2]; rfl⟩

/-- Claim C4 (field isolation): in a run of `mapsToAvro` whose source holds a
record with a valid time and a valid level under the configured keys, no row
handed to the encoder has an attribute under the time key, the level key or
the body key; and when the time key and the level key differ, the record does
get its row. -/
theorem C4_field_isolation {S W σ : Type} (O : Hamba S W σ) (ctx cc : Context) (w : W)
    (s : S) (enc : σ) (c : MapperConfig) (pre rest : Logs) (r : StructuredLog)
    (hNew : O.NewEncoderWithSchema s w = .ok enc)
    (hctx : ∀ i, i ≤ pre.length → ctx.Err i = none)
    (hpre : PassesOk O (c.ToMapper cc).1.MapToTime (c.ToMapper cc).1.MapToLevel
      (c.ToMapper cc).1.MapToBody enc pre)
    (hT : ∃ a, GoMap.find r (c.TimeConfig cc).1 = some a ∧ (c.AnyToTime a).2 = none)
    (hL : ∃ a, GoMap.find r (c.LevelConfig cc).1 = some a ∧ (c.AnyToLevel a).2 = none) :
    (∀ row ∈ (mapsToAvro O ctx w s (pre ++ (r, none) :: rest) (c.ToMapper cc).1.MapToTime
        (c.ToMapper cc).1.MapToLevel (c.ToMapper cc).1.MapToBody).rows,
      (c.TimeConfig cc).1 ∉ attributeKeys row ∧ (c.LevelConfig cc).1 ∉ attributeKeys row ∧
        (c.BodyConfig cc).1 ∉ attributeKeys row) ∧
    ((c.TimeConfig cc).1 ≠ (c.LevelConfig cc).1 →
      (mapsToAvro O ctx w s (pre ++ (r, none) :: rest) (c.ToMapper cc).1.MapToTime
        (c.ToMapper cc).1.MapToLevel (c.ToMapper cc).1.MapToBody).rows[pre.length]? =
        some (expectedRow (c.ToMapper cc).1.MapToTime (c.ToMapper cc).1.MapToLevel
          (c.ToMapper cc).1.MapToBody r)) := by
  constructor
  · intro row hrow
    rw [mapsToAvro_rows O ctx _ _ _ w s enc _ hNew] at hrow
    rcases loop_rows_mem O ctx _ _ _ _ _ row hrow with h1 | ⟨it, _, _, h2⟩
    · simp at h1
    · rw [h2]
      exact keys_not_in_expectedRow c cc it.1
  · intro hne
    exact mapsToAvro_row_at O ctx _ _ _ w s enc pre rest r hNew hctx hpre
      (extractsOk_of_valid c cc r hne hT hL)

/-- Claim C4 at the scenario record under the default keys. -/
theorem C4_field_isolation_witness :
    (mapsToAvro nullHamba Background () () ([] ++ (scenarioRecord, none) :: [])
        (MapperConfigDefault.ToMapper Background).1.MapToTime
        (MapperConfigDefault.ToMapper Background).1.MapToLevel
        (MapperConfigDefault.ToMapper Background).1.MapToBody).rows[0]? =
      some (expectedRow (MapperConfigDefault.ToMapper Background).1.MapToTime
        (MapperConfigDefault.ToMapper Background).1.MapToLevel
        (MapperConfigDefault.ToMapper Background).1.MapToBody scenarioRecord) :=
  (C4_field_isolation nullHamba Background Background () () () MapperConfigDefault
    [] [] scenarioRecord rfl (fun _ _ => rfl) ⟨by simp, trivial⟩
    ⟨.string "2024-01-02T03:04:05Z", rfl, rfl⟩ ⟨.string "INFO", rfl, rfl⟩).2 (by decide)

/-- Claim C5 as stated, refuted: for a record whose map iteration visits
`zone` before `app`, the attribute keys of the encoded row are `zone, app`,
which is not lexicographic order; and the same map iterated in the other
order yields the other attribute order. -/
theorem C5_counterexample :
    (mapsToAvro nullHamba Background () () [(unsortedRecord, none)]
        (MapperDefault Background).1.MapToTime (MapperDefault Background).1.MapToLevel
        (MapperDefault Background).1.MapToBody).rows.map attributeKeys = [["zone", "app"]] ∧
    ¬ KeysSorted ["zone", "app"] ∧
    reorderedRecord.Perm unsortedRecord ∧
    (mapsToAvro nullHamba Background () () [(reorderedRecord, none)]
        (MapperDefault Background).1.MapToTime (MapperDefault Background).1.MapToLevel
        (MapperDefault Background).1.MapToBody).rows.map attributeKeys = [["app", "zone"]] := by
  refine ⟨rfl, ?_, ?_, rfl⟩
  · unfold KeysSorted
    simp only [List.pairwise_cons, List.mem_singleton, forall_eq, not_and]
    intro hle
    exact absurd (String.lt_iff_toList_lt.mpr (by decide : "app".toList < "zone".toList))
      (not_lt_of_le hle)
  · unfold reorderedRecord unsortedRecord
    exact (List.Perm.swap _ _ _).cons _ |>.cons _

/-- Claim C5, amended: the attribute list follows the iteration order of the
record's map: its keys are the keys of the record other than the three
configured keys, in the order the map iteration yields them.  It is in
lexicographic order exactly when that iteration order is, and it is the same
wherever the record stands in the source. -/
theorem C5_attribute_order {S W σ : Type} (O : Hamba S W σ) (ctx cc : Context) (w : W)
    (s : S) (enc : σ) (c : MapperConfig) (pre rest : Logs) (r : StructuredLog)
    (hNew : O.NewEncoderWithSchema s w = .ok enc)
    (hctx : ∀ i, i ≤ pre.length → ctx.Err i = none)
    (hpre : PassesOk O (c.ToMapper cc).1.MapToTime (c.ToMapper cc).1.MapToLevel
      (c.ToMapper cc).1.MapToBody enc pre)
    (hok : ExtractsOk (c.ToMapper cc).1.MapToTime (c.ToMapper cc).1.MapToLevel
      (c.ToMapper cc).1.MapToBody r) :
    ∃ row : GoMap,
      (mapsToAvro O ctx w s (pre ++ (r, none) :: rest) (c.ToMapper cc).1.MapToTime
        (c.ToMapper cc).1.MapToLevel (c.ToMapper cc).1.MapToBody).rows[pre.length]? = some row ∧
      attributeKeys row =
        (GoMap.keys r).filter (fun k => decide (k ≠ (c.TimeConfig cc).1 ∧
          k ≠ (c.LevelConfig cc).1 ∧ k ≠ (c.BodyConfig cc).1)) ∧
      (KeysSorted (attributeKeys row) ↔
        KeysSorted ((GoMap.keys r).filter (fun k => decide (k ≠ (c.TimeConfig cc).1 ∧
          k ≠ (c.LevelConfig cc).1 ∧ k ≠ (c.BodyConfig cc).1)))) := by
  have hkeys : attributeKeys (expectedRow (c.ToMapper cc).1.MapToTime
      (c.ToMapper cc).1.MapToLevel (c.ToMapper cc).1.MapToBody r) =
      (GoMap.keys r).filter (fun k => decide (k ≠ (c.TimeConfig cc).1 ∧
          k ≠ (c.LevelConfig cc).1 ∧ k ≠ (c.BodyConfig cc).1)) := by
    rw [attributeKeys_expectedRow, remaining_mapper]
    simp only [GoMap.keys, List.filter_map]
    rfl
  exact ⟨_, mapsToAvro_row_at O ctx _ _ _ w s enc pre rest r hNew hctx hpre hok, hkeys,
    by rw [hkeys]⟩

/-- Claim C5, amended, at a record iterated with `zone` before `app`. -/
theorem C5_attribute_order_witness :
    ∃ row : GoMap,
      (mapsToAvro nullHamba Background () () ([] ++ (unsortedRecord, none) :: [])
        (MapperConfigDefault.ToMapper Background).1.MapToTime
        (MapperConfigDefault.ToMapper Background).1.MapToLevel
        (MapperConfigDefault.ToMapper Background).1.MapToBody).rows[0]? = some row ∧
      attributeKeys row = ["zone", "app"] := by
  obtain ⟨row, h1, h2, -⟩ := C5_attribute_order nullHamba Background Background () () ()
    MapperConfigDefault [] [] unsortedRecord rfl (fun _ _ => rfl) ⟨by simp, trivial⟩
    ⟨rfl, rfl, rfl⟩
  exact ⟨row, h1, by rw [h2]; rfl⟩

/-- Claim C6 (one row per record): for a source of `n` items that all pass
through the loop and no cancellation, `mapsToAvro` hands the encoder exactly
`n` rows, the `i`-th being the row built from the `i`-th record alone, pulls
`n` items and returns the result of flushing the encoder that has encoded
these rows; the buffers left by earlier iterations do not reach the assembled
row; on the empty source it encodes nothing and returns the result of the
flush. -/
theorem C6_one_row_per_record {S W σ : Type} (O : Hamba S W σ) (ctx : Context) (w : W)
    (s : S) (enc : σ) (f : GoMap → Call Time) (g : GoMap → Call String)
    (h : GoMap → Call Any) (m : Logs)
    (hNew : O.NewEncoderWithSchema s w = .ok enc)
    (hctx : ∀ i, ctx.Err i = none)
    (hm : PassesOk O f g h enc m) :
    (mapsToAvro O ctx w s m f g h).rows = m.map (fun it => expectedRow f g h it.1) ∧
    (mapsToAvro O ctx w s m f g h).rows.length = m.length ∧
    (mapsToAvro O ctx w s m f g h).pulled = m.length ∧
    (mapsToAvro O ctx w s m f g h).err =
      (O.Flush (encodeAll O enc (m.map fun it => expectedRow f g h it.1))).2 ∧
    (∀ (buf : GoMap) (attrs : List Any) (r : StructuredLog),
      assembleRow f g h buf attrs r = assembleRow f g h [] [] r) ∧
    (mapsToAvro O ctx w s [] f g h).rows = [] ∧
    (mapsToAvro O ctx w s [] f g h).err = (O.Flush enc).2 := by
  obtain ⟨st1, h1, h2, h3, h4⟩ := loop_append_ok O ctx f g h m []
    { enc := enc, buf := [], attributes := [], rows := [], pulled := 0 } hm
    (fun i _ _ => hctx i)
  simp only [List.append_nil, loop, List.nil_append, Nat.zero_add] at h1 h3 h4
  refine ⟨?_, ?_, ?_, ?_, assembleRow_fresh f g h, ?_, ?_⟩
  · unfold mapsToAvro; simp only [hNew, h1, h3]
  · unfold mapsToAvro; simp only [hNew, h1, h3, List.length_map]
  · unfold mapsToAvro; simp only [hNew, h1, h4]
  · unfold mapsToAvro; simp only [hNew, h1, h2]
  · unfold mapsToAvro; simp only [hNew, loop]
  · unfold mapsToAvro; simp only [hNew, loop]

/-- Claim C6 at a source of two records. -/
theorem C6_one_row_per_record_witness :
    (mapsToAvro nullHamba Background () () [(scenarioRecord, none), (unsortedRecord, none)]
        (MapperDefault Background).1.MapToTime (MapperDefault Background).1.MapToLevel
        (MapperDefault Background).1.MapToBody).rows.length = 2 :=
  (C6_one_row_per_record nullHamba Background () () ()
    (MapperDefault Background).1.MapToTime (MapperDefault Background).1.MapToLevel
    (MapperDefault Background).1.MapToBody [(scenarioRecord, none), (unsortedRecord, none)]
    rfl (fun _ => rfl)
    ⟨by
      intro it hit
      simp only [List.mem_cons, List.mem_singleton, List.not_mem_nil, or_false] at hit
      rcases hit with hit | hit <;> subst hit <;> exact ⟨rfl, rfl, rfl, rfl⟩,
      rfl, rfl, trivial⟩).2.1

/-- Claim C7 (time extraction of the default-built mapper): `MapToTime`
fails with `ErrNoTime` when the time key is missing, fails with an error that
is `ErrInvalidTime` when the value is not a string, and on a string returns
the value and the error of `time.Parse` with the layout `RFC3339Nano`. -/
theorem C7_time_extraction (parse : String → String → Time × GoError)
    (timeKey levelKey bodyKey : IOFn String) (cc : Context) (r : StructuredLog) :
    (GoMap.find r (timeKey cc).1 = none →
      (((MapperConfigNewDefault parse timeKey levelKey bodyKey).ToMapper cc).1.MapToTime r).err =
        some ErrNoTime) ∧
    (∀ a, GoMap.find r (timeKey cc).1 = some a → (∀ s, a ≠ .string s) →
      ∃ e, (((MapperConfigNewDefault parse timeKey levelKey bodyKey).ToMapper cc).1.MapToTime
          r).err = some e ∧ e.Is ErrInvalidTime = true) ∧
    (∀ s, GoMap.find r (timeKey cc).1 = some (.string s) →
      (((MapperConfigNewDefault parse timeKey levelKey bodyKey).ToMapper cc).1.MapToTime r).val =
          (parse RFC3339Nano s).1 ∧
      (((MapperConfigNewDefault parse timeKey levelKey bodyKey).ToMapper cc).1.MapToTime r).err =
          (parse RFC3339Nano s).2) := by
  refine ⟨?_, ?_, ?_⟩
  · intro hf
    simp [MapperConfig.ToMapper, MapperConfigNewDefault, hf]
  · intro a hf hns
    refine ⟨.wrapError ErrInvalidTime a, ?_, by simp [Error.Is, Error.same, ErrInvalidTime]⟩
    simp only [MapperConfig.ToMapper, MapperConfigNewDefault, hf, TimeConfig.ToParserAny]
  · intro s hf
    simp [MapperConfig.ToMapper, MapperConfigNewDefault, hf, TimeConfig.ToParserAny,
      TimeConfig.ToParser, TimeConfigDefault]

/-- Claim C7 at a record without time, a record whose time is `null` and a
record whose time is a string that is no timestamp. -/
theorem C7_time_extraction_witness :
    (((MapperConfigNewDefault timeParse TimeKeyDefault LevelKeyDefault BodyKeyDefault).ToMapper
        Background).1.MapToTime [("level", .string "WARN")]).err = some ErrNoTime ∧
    (∃ e, (((MapperConfigNewDefault timeParse TimeKeyDefault LevelKeyDefault
        BodyKeyDefault).ToMapper Background).1.MapToTime [("time", .null)]).err = some e ∧
      e.Is ErrInvalidTime = true) ∧
    (((MapperConfigNewDefault timeParse TimeKeyDefault LevelKeyDefault BodyKeyDefault).ToMapper
        Background).1.MapToTime [("time", .string "yesterday")]).err =
      (timeParse RFC3339Nano "yesterday").2 :=
  ⟨(C7_time_extraction timeParse TimeKeyDefault LevelKeyDefault BodyKeyDefault Background
      [("level", .string "WARN")]).1 rfl,
   (C7_time_extraction timeParse TimeKeyDefault LevelKeyDefault BodyKeyDefault Background
      [("time", .null)]).2.1 .null rfl (fun _ hs => by cases hs),
   ((C7_time_extraction timeParse TimeKeyDefault LevelKeyDefault BodyKeyDefault Background
      [("time", .string "yesterday")]).2.2 "yesterday" rfl).2⟩

/-- Claim C8 (level extraction of the default-built mapper): `MapToLevel`
fails with `ErrNoLevel` when the level key is missing, fails with an error
that is `ErrInvalidLevel` when the value is not a string, and returns a string
value unchanged with no error. -/
theorem C8_level_extraction (parse : String → String → Time × GoError)
    (timeKey levelKey bodyKey : IOFn String) (cc : Context) (r : StructuredLog) :
    (GoMap.find r (levelKey cc).1 = none →
      (((MapperConfigNewDefault parse timeKey levelKey bodyKey).ToMapper cc).1.MapToLevel
        r).err = some ErrNoLevel) ∧
    (∀ a, GoMap.find r (levelKey cc).1 = some a → (∀ s, a ≠ .string s) →
      ∃ e, (((MapperConfigNewDefault parse timeKey levelKey bodyKey).ToMapper cc).1.MapToLevel
          r).err = some e ∧ e.Is ErrInvalidLevel = true) ∧
    (∀ s, GoMap.find r (levelKey cc).1 = some (.string s) →
      (((MapperConfigNewDefault parse timeKey levelKey bodyKey).ToMapper cc).1.MapToLevel
          r).val = s ∧
      (((MapperConfigNewDefault parse timeKey levelKey bodyKey).ToMapper cc).1.MapToLevel
          r).err = none) := by
  refine ⟨?_, ?_, ?_⟩
  · intro hf
    simp [MapperConfig.ToMapper, MapperConfigNewDefault, hf]
  · intro a hf hns
    refine ⟨.wrapError ErrInvalidLevel a, ?_, by simp [Error.Is, Error.same, ErrInvalidLevel]⟩
    simp only [MapperConfig.ToMapper, MapperConfigNewDefault, hf, ParseLevel]
  · intro s hf
    simp [MapperConfig.ToMapper, MapperConfigNewDefault, hf, ParseLevel]

/-- Claim C8 at a record without level, a record whose level is a number and a
record whose level is the empty string. -/
theorem C8_level_extraction_witness :
    (((MapperConfigNewDefault timeParse TimeKeyDefault LevelKeyDefault BodyKeyDefault).ToMapper
        Background).1.MapToLevel [("time", .string "x")]).err = some ErrNoLevel ∧
    (∃ e, (((MapperConfigNewDefault timeParse TimeKeyDefault LevelKeyDefault
        BodyKeyDefault).ToMapper Background).1.MapToLevel
          [("level", .float64 4607182418800017408)]).err = some e ∧
      e.Is ErrInvalidLevel = true) ∧
    (((MapperConfigNewDefault timeParse TimeKeyDefault LevelKeyDefault BodyKeyDefault).ToMapper
        Background).1.MapToLevel [("level", .string "")]).val = "" :=
  ⟨(C8_level_extraction timeParse TimeKeyDefault LevelKeyDefault BodyKeyDefault Background
      [("time", .string "x")]).1 rfl,
   (C8_level_extraction timeParse TimeKeyDefault LevelKeyDefault BodyKeyDefault Background
      [("level", .float64 4607182418800017408)]).2.1 _ rfl (fun _ hs => by cases hs),
   ((C8_level_extraction timeParse TimeKeyDefault LevelKeyDefault BodyKeyDefault Background
      [("level", .string "")]).2.2 "" rfl).1⟩

/-- Claim C9 (body extraction never fails): `MapToBody` returns no error; when
the body key is missing it returns the empty string and leaves the record
unchanged; when the key is present it returns the stored value as it is. -/
theorem C9_body_extraction (c : MapperConfig) (cc : Context) (r : StructuredLog) :
    ((c.ToMapper cc).1.MapToBody r).err = none ∧
    (GoMap.find r (c.BodyConfig cc).1 = none →
      ((c.ToMapper cc).1.MapToBody r).val = .string "" ∧
      ((c.ToMapper cc).1.MapToBody r).m = r) ∧
    (∀ a, GoMap.find r (c.BodyConfig cc).1 = some a →
      ((c.ToMapper cc).1.MapToBody r).val = a) := by
  refine ⟨?_, ?_, ?_⟩
  · simp only [MapperConfig.ToMapper]
    split <;> rfl
  · intro hf
    simp [MapperConfig.ToMapper, hf]
  · intro a hf
    simp [MapperConfig.ToMapper, hf]

/-- Claim C9 at a record without body and a record whose body is `null`. -/
theorem C9_body_extraction_witness :
    ((MapperConfigDefault.ToMapper Background).1.MapToBody [("level", .string "I")]).val =
      .string "" ∧
    ((MapperConfigDefault.ToMapper Background).1.MapToBody [("body", .null)]).val = .null :=
  ⟨((C9_body_extraction MapperConfigDefault Background [("level", .string "I")]).2.1 rfl).1,
   (C9_body_extraction MapperConfigDefault Background [("body", .null)]).2.2 .null rfl⟩

/-- Claim C10 (unconditional deletion): after `MapToTime`, `MapToLevel` or
`MapToBody` the record is the record before the call without the extractor's
key, whatever the returned error; a record without the key is unchanged.
Removing a key keeps the entries under every other key, in their order, and
nothing else. -/
theorem C10_unconditional_deletion (c : MapperConfig) (cc : Context) (r : StructuredLog) :
    (((c.ToMapper cc).1.MapToTime r).m = GoMap.delete r (c.TimeConfig cc).1 ∧
      (GoMap.find r (c.TimeConfig cc).1 = none → ((c.ToMapper cc).1.MapToTime r).m = r)) ∧
    (((c.ToMapper cc).1.MapToLevel r).m = GoMap.delete r (c.LevelConfig cc).1 ∧
      (GoMap.find r (c.LevelConfig cc).1 = none → ((c.ToMapper cc).1.MapToLevel r).m = r)) ∧
    (((c.ToMapper cc).1.MapToBody r).m = GoMap.delete r (c.BodyConfig cc).1 ∧
      (GoMap.find r (c.BodyConfig cc).1 = none → ((c.ToMapper cc).1.MapToBody r).m = r)) ∧
    (∀ k : String,
      GoMap.delete r k = r.filter (fun kv => decide (kv.1 ≠ k)) ∧
      GoMap.find (GoMap.delete r k) k = none ∧
      (∀ k2, k2 ≠ k → GoMap.find (GoMap.delete r k) k2 = GoMap.find r k2) ∧
      (∀ kv, kv ∈ GoMap.delete r k ↔ kv ∈ r ∧ kv.1 ≠ k)) := by
  refine ⟨⟨MapToTime_m c cc r, ?_⟩, ⟨MapToLevel_m c cc r, ?_⟩,
    ⟨MapToBody_m c cc r, ?_⟩, ?_⟩
  · intro hf; rw [MapToTime_m, GoMap.delete_of_find_none hf]
  · intro hf; rw [MapToLevel_m, GoMap.delete_of_find_none hf]
  · intro hf; rw [MapToBody_m, GoMap.delete_of_find_none hf]
  · intro k
    exact ⟨rfl, GoMap.find_delete_self r k, fun k2 hk => GoMap.find_delete_ne r hk,
      fun kv => GoMap.mem_delete⟩

/-- Claim C10 at a record whose time is `null` (the extractor fails, the key is
removed) and at a record without the level key. -/
theorem C10_unconditional_deletion_witness :
    ((MapperConfigDefault.ToMapper Background).1.MapToTime
        [("time", .null), ("level", .string "I")]).m = [("level", .string "I")] ∧
    ((MapperConfigDefault.ToMapper Background).1.MapToTime
        [("time", .null), ("level", .string "I")]).err ≠ none ∧
    ((MapperConfigDefault.ToMapper Background).1.MapToLevel [("x", .null)]).m =
      [("x", .null)] :=
  ⟨(C10_unconditional_deletion MapperConfigDefault Background
      [("time", .null), ("level", .string "I")]).1.1.trans rfl,
   by simp [MapperConfigDefault, MapperConfigNewDefault, MapperConfig.ToMapper, TimeKeyDefault,
     Of, GoMap.find, TimeConfig.ToParserAny],
   (C10_unconditional_deletion MapperConfigDefault Background [("x", .null)]).2.1.2 rfl⟩

/-- Claim C11 (timestamp precision): under the default mapper a record whose
time is `"2024-01-02T03:04:05.123456Z"` and whose level is a string, standing
after any run of records the loop passes through, gets a row whose time field
is `1704164645123456`; the parsed instant is 1704164645 s and 123456000 ns, so
nothing is lost by the division to microseconds. -/
theorem C11_timestamp_precision {S W σ : Type} (O : Hamba S W σ) (ctx cc : Context) (w : W)
    (s : S) (enc : σ) (pre rest : Logs) (r : StructuredLog)
    (hNew : O.NewEncoderWithSchema s w = .ok enc)
    (hctx : ∀ i, i ≤ pre.length → ctx.Err i = none)
    (hpre : PassesOk O (MapperDefault cc).1.MapToTime (MapperDefault cc).1.MapToLevel
      (MapperDefault cc).1.MapToBody enc pre)
    (hT : GoMap.find r "time" = some (.string "2024-01-02T03:04:05.123456Z"))
    (hL : ∃ lv, GoMap.find r "level" = some (.string lv)) :
    (∃ row : GoMap,
      (mapsToAvro O ctx w s (pre ++ (r, none) :: rest) (MapperDefault cc).1.MapToTime
        (MapperDefault cc).1.MapToLevel (MapperDefault cc).1.MapToBody).rows[pre.length]? =
          some row ∧
      GoMap.find row "time" = some (.int64 1704164645123456)) ∧
    ((MapperDefault cc).1.MapToTime r).val = { sec := 1704164645, nsec := 123456000 } ∧
    (1704164645123456 : Int) * 1000 = 1704164645 * 1000000000 + 123456000 := by
  have hTv : ((MapperDefault cc).1.MapToTime r) =
      { val := (timeParse RFC3339Nano "2024-01-02T03:04:05.123456Z").1,
        err := (timeParse RFC3339Nano "2024-01-02T03:04:05.123456Z").2,
        m := GoMap.delete r "time" } := by
    show (match GoMap.find r "time" with
      | none => _
      | some a => _) = _
    rw [hT]; rfl
  have hparse : timeParse RFC3339Nano "2024-01-02T03:04:05.123456Z" =
      ({ sec := 1704164645, nsec := 123456000 }, none) := rfl
  obtain ⟨lv, hlv⟩ := hL
  have hok : ExtractsOk (MapperDefault cc).1.MapToTime (MapperDefault cc).1.MapToLevel
      (MapperDefault cc).1.MapToBody r :=
    extractsOk_of_valid MapperConfigDefault cc r (show "time" ≠ "level" by decide)
      ⟨_, hT, by
        show (timeParse RFC3339Nano "2024-01-02T03:04:05.123456Z").2 = none
        rw [hparse]⟩
      ⟨_, hlv, rfl⟩
  refine ⟨⟨_, mapsToAvro_row_at O ctx _ _ _ w s enc pre rest r hNew hctx hpre hok, ?_⟩, ?_,
    by norm_num⟩
  · unfold expectedRow
    rw [hTv, hparse]
    rfl
  · rw [hTv, hparse]

/-- Claim C11 at a record that holds the time and a level. -/
theorem C11_timestamp_precision_witness :
    ∃ row : GoMap,
      (mapsToAvro nullHamba Background () () ([] ++ (microRecord, none) :: [])
        (MapperDefault Background).1.MapToTime (MapperDefault Background).1.MapToLevel
        (MapperDefault Background).1.MapToBody).rows[0]? = some row ∧
      GoMap.find row "time" = some (.int64 1704164645123456) :=
  (C11_timestamp_precision nullHamba Background Background () () () [] [] microRecord rfl
    (fun _ _ => rfl) ⟨by simp, trivial⟩ rfl ⟨"INFO", rfl⟩).1

/-- Claim C12 (source error propagation): when the items before item `K` pass
through the loop and item `K` carries the error `e`, `mapsToAvro` returns `e`
whatever the state of the context at that moment.  It has handed the encoder
the rows of the earlier records only, has made the extractor calls of the
earlier records only (three for each), has left the record of item `K` as it
was pulled, has pulled `K` items, and nothing of this depends on the items
after item `K`. -/
theorem C12_source_error {S W σ : Type} (O : Hamba S W σ) (ctx : Context) (w : W) (s : S)
    (enc : σ) (f : GoMap → Call Time) (g : GoMap → Call String) (h : GoMap → Call Any)
    (pre rest : Logs) (x : StructuredLog) (e : Error)
    (hNew : O.NewEncoderWithSchema s w = .ok enc)
    (hctx : ∀ i, i < pre.length → ctx.Err i = none)
    (hpre : PassesOk O f g h enc pre) :
    mapsToAvro O ctx w s (pre ++ (x, some e) :: rest) f g h =
      { err := some e
        enc := some (O.Close (encodeAll O enc (pre.map fun it => expectedRow f g h it.1))).1
        rows := pre.map (fun it => expectedRow f g h it.1)
        pulled := pre.length + 1
        records := pre.map (fun it => remaining f g h it.1) ++ [x]
        calls := 3 * pre.length } :=
  mapsToAvro_stop O ctx f g h w s enc pre ((x, some e) :: rest) x e hNew hctx hpre
    (fun st _ => loop_stop_at_source_err O ctx f g h st x e rest)

/-- Claim C12 at a source whose second item carries an error, with a context
that is already cancelled when that item is pulled. -/
theorem C12_source_error_witness :
    (mapsToAvro nullHamba (cancelledFrom 1 Canceled) () ()
        ([(scenarioRecord, none)] ++
          (scenarioRecord, some (.errorString "unexpected EOF")) :: [(scenarioRecord, none)])
        (MapperDefault Background).1.MapToTime (MapperDefault Background).1.MapToLevel
        (MapperDefault Background).1.MapToBody).err = some (.errorString "unexpected EOF") :=
  congrArg Outcome.err
    (C12_source_error nullHamba (cancelledFrom 1 Canceled) () () ()
      (MapperDefault Background).1.MapToTime (MapperDefault Background).1.MapToLevel
      (MapperDefault Background).1.MapToBody [(scenarioRecord, none)]
      [(scenarioRecord, none)] scenarioRecord (.errorString "unexpected EOF") rfl
      (fun i hi => by
        have h0 : i = 0 := by simpa using hi
        subst h0
        rfl)
      ⟨by
        intro it hit
        simp only [List.mem_singleton] at hit
        subst hit
        exact ⟨rfl, rfl, rfl, rfl⟩, rfl, trivial⟩)

/-- Claim C13 (cancellation at the record boundary): when the items before
item `K` pass through the loop and the context is done at the moment the
error-free item `K` has been pulled, `mapsToAvro` returns the error of the
context.  It has handed the encoder the rows of the earlier records only, in
the encoder state these rows lead to, has made no extractor call for item `K`
and has left its record as it was pulled, has pulled `K` items, and nothing of
this depends on the items after item `K`. -/
theorem C13_cancellation {S W σ : Type} (O : Hamba S W σ) (ctx : Context) (w : W) (s : S)
    (enc : σ) (f : GoMap → Call Time) (g : GoMap → Call String) (h : GoMap → Call Any)
    (pre rest : Logs) (x : StructuredLog) (e : Error)
    (hNew : O.NewEncoderWithSchema s w = .ok enc)
    (hctx : ∀ i, i < pre.length → ctx.Err i = none)
    (hpre : PassesOk O f g h enc pre)
    (hdone : ctx.Err pre.length = some e) :
    mapsToAvro O ctx w s (pre ++ (x, none) :: rest) f g h =
      { err := some e
        enc := some (O.Close (encodeAll O enc (pre.map fun it => expectedRow f g h it.1))).1
        rows := pre.map (fun it => expectedRow f g h it.1)
        pulled := pre.length + 1
        records := pre.map (fun it => remaining f g h it.1) ++ [x]
        calls := 3 * pre.length } :=
  mapsToAvro_stop O ctx f g h w s enc pre ((x, none) :: rest) x e hNew hctx hpre
    (fun st hst => loop_stop_at_cancel O ctx f g h st x e rest (hst ▸ hdone))

/-- Claim C13 at a source of three records with a context cancelled when the
second record is pulled. -/
theorem C13_cancellation_witness :
    (mapsToAvro nullHamba (cancelledFrom 1 Canceled) () ()
        ([(scenarioRecord, none)] ++ (unsortedRecord, none) :: [(scenarioRecord, none)])
        (MapperDefault Background).1.MapToTime (MapperDefault Background).1.MapToLevel
        (MapperDefault Background).1.MapToBody).records =
      [[("user", .string "alice")], unsortedRecord] :=
  (congrArg Outcome.records
    (C13_cancellation nullHamba (cancelledFrom 1 Canceled) () () ()
      (MapperDefault Background).1.MapToTime (MapperDefault Background).1.MapToLevel
      (MapperDefault Background).1.MapToBody [(scenarioRecord, none)]
      [(scenarioRecord, none)] unsortedRecord Canceled rfl
      (fun i hi => by
        have h0 : i = 0 := by simpa using hi
        subst h0
        rfl)
      ⟨by
        intro it hit
        simp only [List.mem_singleton] at hit
        subst hit
        exact ⟨rfl, rfl, rfl, rfl⟩, rfl, trivial⟩
      rfl)).trans rfl

/-- Claim C14 (configuration fallback): for every environment each of the
three key configurations of the command returns no error, resolves to the
value of its environment variable when the variable is set and to the default
`time`, `level`, `body` when it is not; and `i.OrElse(alt)` returns the value
of `i` with no error when `i` succeeds and the result of `alt` otherwise. -/
theorem C14_configuration_fallback (lookupEnv : Environ) (ctx : Context) :
    ((timeConfig lookupEnv ctx).2 = none ∧
      (∀ v, lookupEnv "ENV_TIME_KEY" = some v → (timeConfig lookupEnv ctx).1 = v) ∧
      (lookupEnv "ENV_TIME_KEY" = none → (timeConfig lookupEnv ctx).1 = "time")) ∧
    ((levelConfig lookupEnv ctx).2 = none ∧
      (∀ v, lookupEnv "ENV_LEVEL_KEY" = some v → (levelConfig lookupEnv ctx).1 = v) ∧
      (lookupEnv "ENV_LEVEL_KEY" = none → (levelConfig lookupEnv ctx).1 = "level")) ∧
    ((bodyConfig lookupEnv ctx).2 = none ∧
      (∀ v, lookupEnv "ENV_BODY_KEY" = some v → (bodyConfig lookupEnv ctx).1 = v) ∧
      (lookupEnv "ENV_BODY_KEY" = none → (bodyConfig lookupEnv ctx).1 = "body")) ∧
    (∀ (T : Type) (i alt : IOFn T),
      ((i ctx).2 = none → IOFn.OrElse i alt ctx = ((i ctx).1, none)) ∧
      ((i ctx).2 ≠ none → IOFn.OrElse i alt ctx = alt ctx)) := by
  refine ⟨?_, ?_, ?_, ?_⟩
  · cases hE : lookupEnv "ENV_TIME_KEY" <;>
      simp [timeConfig, IOFn.OrElse, GetEnvByKey, hE, TimeKeyDefault, Of]
  · cases hE : lookupEnv "ENV_LEVEL_KEY" <;>
      simp [levelConfig, IOFn.OrElse, GetEnvByKey, hE, LevelKeyDefault, Of]
  · cases hE : lookupEnv "ENV_BODY_KEY" <;>
      simp [bodyConfig, IOFn.OrElse, GetEnvByKey, hE, BodyKeyDefault, Of]
  · intro T i alt
    constructor
    · intro hi
      simp [IOFn.OrElse, hi]
    · intro hi
      cases he : (i ctx).2 with
      | none => exact absurd he hi
      | some e => simp [IOFn.OrElse, he]

/-- Claim C14 at an environment that sets only `ENV_LEVEL_KEY`, to
`severity`. -/
theorem C14_configuration_fallback_witness :
    (levelConfig (fun k => if k = "ENV_LEVEL_KEY" then some "severity" else none)
        Background).1 = "severity" ∧
    (timeConfig (fun k => if k = "ENV_LEVEL_KEY" then some "severity" else none)
        Background).1 = "time" :=
  ⟨(C14_configuration_fallback
      (fun k => if k = "ENV_LEVEL_KEY" then some "severity" else none)
      Background).2.1.2.1 "severity" (by decide),
   (C14_configuration_fallback
      (fun k => if k = "ENV_LEVEL_KEY" then some "severity" else none)
      Background).1.2.2 (by decide)⟩

/-- Claim C15 as stated, refuted: on the input `[1] {"a":1}` a consumer that
goes on after the item with the decode error is handed a further item, the
record `{"a":1}`, before the iterator returns at the end of input. -/
theorem C15_counterexample :
    ReaderToJsons scriptedDecoder collectAll 3
        { dec := typeErrorThenRecord, buf := [], consumer := [] } =
      ({ dec := []
         buf := []
         consumer := typeErrorThenRecord
         items := typeErrorThenRecord }, true) ∧
    typeErrorThenRecord.map (fun it => it.2.isSome) = [true, false] := by
  constructor
  · rfl
  · rfl

/-- Claim C15, amended: against every consumer that stops at an item with a
non-nil error (as the loop of `mapsToAvro` does), for every decoder and at
every moment, only the last item handed to the consumer can carry an error,
and no item carries `io.EOF`; a decode error is handed to the consumer as an
item and the iterator returns; at a clean end of input the iterator returns
without handing anything to the consumer; and on a finite input the iterator
does return. -/
theorem C15_terminal_errors {δ κ : Type} (D : JsonDecoder δ) (yield : Yield κ)
    (hstop : ∀ k m e, (yield k m (some e)).2.2 = false) (fuel : Nat) :
    (∀ (d0 : δ) (k0 : κ),
      (∀ it ∈ (ReaderToJsons D yield fuel
          { dec := d0, buf := [], consumer := k0 }).1.items.dropLast, it.2 = none) ∧
      (∀ it ∈ (ReaderToJsons D yield fuel
          { dec := d0, buf := [], consumer := k0 }).1.items, isEOF it.2 = false)) ∧
    (∀ (st : ReadState δ κ) (e : Error),
      (D.Decode st.dec []).2.2 = some e → isEOF (some e) = false →
      (ReaderToJsons D yield (fuel + 1) st).2 = true ∧
      (ReaderToJsons D yield (fuel + 1) st).1.items =
        st.items ++ [((D.Decode st.dec []).2.1, some e)]) ∧
    (∀ st : ReadState δ κ, isEOF (D.Decode st.dec []).2.2 = true →
      (ReaderToJsons D yield (fuel + 1) st).2 = true ∧
      (ReaderToJsons D yield (fuel + 1) st).1.items = st.items) ∧
    (∀ (script : List (GoMap × GoError)) (k0 : κ),
      (ReaderToJsons scriptedDecoder yield (script.length + 1)
        { dec := script, buf := [], consumer := k0 }).2 = true) := by
  refine ⟨fun d0 k0 => ?_, fun st e he hne => ?_, fun st heof => ?_, fun script k0 => ?_⟩
  · obtain ⟨r1, r2⟩ := ReaderToJsons_items D yield hstop fuel
      { dec := d0, buf := [], consumer := k0 } (by simp)
    exact ⟨r1, r2 (by simp)⟩
  · rw [ReaderToJsons_error D yield fuel st e he hne (hstop _ _ e)]
    exact ⟨rfl, rfl⟩
  · rw [ReaderToJsons_eof D yield fuel st heof]
    exact ⟨rfl, rfl⟩
  · exact ReaderToJsons_scripted_returns yield script [] k0 []

/-- Claim C15, amended, on the input `[1] {"a":1}` against a consumer that
stops at the first error: the decode error is the only item. -/
theorem C15_terminal_errors_witness :
    (ReaderToJsons scriptedDecoder stopAtError 3
        { dec := typeErrorThenRecord, buf := [], consumer := 0 }).2 = true ∧
    (ReaderToJsons scriptedDecoder stopAtError 3
        { dec := typeErrorThenRecord, buf := [], consumer := 0 }).1.items =
      [] ++ [([], some arrayIntoMapError)] :=
  (C15_terminal_errors scriptedDecoder stopAtError (fun _ _ _ => rfl) 2).2.1
    { dec := typeErrorThenRecord, buf := [], consumer := 0 }
    arrayIntoMapError rfl rfl

/-- Claim C16 (coinciding keys): when the time key and the level key of a
mapper are the same string, the extraction sequence of the driver fails on
every record: with `ErrNoTime` when the key is absent, with the error of the
time conversion when it fails, and with `ErrNoLevel` when time extraction
succeeds; and no run of `mapsToAvro` hands a row to the encoder. -/
theorem C16_coinciding_keys (c : MapperConfig) (cc : Context)
    (hTL : (c.TimeConfig cc).1 = (c.LevelConfig cc).1) (r : StructuredLog) :
    (GoMap.find r (c.TimeConfig cc).1 = none →
      ∀ buf attrs, (assembleRow (c.ToMapper cc).1.MapToTime (c.ToMapper cc).1.MapToLevel
        (c.ToMapper cc).1.MapToBody buf attrs r).err = some ErrNoTime) ∧
    (∀ a e, GoMap.find r (c.TimeConfig cc).1 = some a → (c.AnyToTime a).2 = some e →
      ∀ buf attrs, (assembleRow (c.ToMapper cc).1.MapToTime (c.ToMapper cc).1.MapToLevel
        (c.ToMapper cc).1.MapToBody buf attrs r).err = some e) ∧
    (∀ a, GoMap.find r (c.TimeConfig cc).1 = some a → (c.AnyToTime a).2 = none →
      ((c.ToMapper cc).1.MapToTime r).err = none ∧
      ∀ buf attrs, (assembleRow (c.ToMapper cc).1.MapToTime (c.ToMapper cc).1.MapToLevel
        (c.ToMapper cc).1.MapToBody buf attrs r).err = some ErrNoLevel) ∧
    (∀ (S W σ : Type) (O : Hamba S W σ) (ctx : Context) (w : W) (s : S) (m : Logs),
      (mapsToAvro O ctx w s m (c.ToMapper cc).1.MapToTime (c.ToMapper cc).1.MapToLevel
        (c.ToMapper cc).1.MapToBody).rows = []) := by
  refine ⟨?_, ?_, ?_, ?_⟩
  · intro hf buf attrs
    apply assembleRow_time_err
    simp [MapperConfig.ToMapper, hf]
  · intro a e hf he buf attrs
    apply assembleRow_time_err
    simp [MapperConfig.ToMapper, hf, he]
  · intro a hf he
    have h1 : ((c.ToMapper cc).1.MapToTime r).err = none := by
      simp [MapperConfig.ToMapper, hf, he]
    refine ⟨h1, fun buf attrs => ?_⟩
    have h2 := level_after_time_coinciding c cc hTL r
    simp only [assembleRow, h1, h2]
  · intro S W σ O ctx w s m
    cases hNew : O.NewEncoderWithSchema s w with
    | error e => simp [mapsToAvro, hNew]
    | ok enc =>
      rw [List.eq_nil_iff_forall_not_mem]
      intro row hrow
      rw [mapsToAvro_rows O ctx _ _ _ w s enc _ hNew] at hrow
      rcases loop_rows_mem O ctx _ _ _ _ _ row hrow with h1 | ⟨it, _, hok, _⟩
      · simp at h1
      · exact not_extractsOk_coinciding c cc hTL it.1 hok

/-- Claim C16 at a configuration that takes time and level from the key `ts`,
on a record with a valid time under that key. -/
theorem C16_coinciding_keys_witness :
    (mapsToAvro nullHamba Background () ()
        [([("ts", .string "2024-01-02T03:04:05Z")], none)]
        ((MapperConfigNewDefault timeParse (Of "ts") (Of "ts") BodyKeyDefault).ToMapper
          Background).1.MapToTime
        ((MapperConfigNewDefault timeParse (Of "ts") (Of "ts") BodyKeyDefault).ToMapper
          Background).1.MapToLevel
        ((MapperConfigNewDefault timeParse (Of "ts") (Of "ts") BodyKeyDefault).ToMapper
          Background).1.MapToBody).rows = [] :=
  (C16_coinciding_keys (MapperConfigNewDefault timeParse (Of "ts") (Of "ts") BodyKeyDefault)
    Background rfl []).2.2.2 Unit Unit Unit nullHamba Background () ()
    [([("ts", .string "2024-01-02T03:04:05Z")], none)]

/-- Claim C17 (mapper construction): the error `ToMapper` returns is the join
of the errors of the three key configurations, so it is non-nil exactly when
one of them fails and it wraps the error of every configuration that fails,
the later ones included; the mapper it returns works with the three keys the
configurations give, whatever their errors; and the default mapper is built
without error. -/
theorem C17_mapper_construction (c : MapperConfig) (ctx : Context) :
    (c.ToMapper ctx).2 =
      errorsJoin [(c.TimeConfig ctx).2, (c.LevelConfig ctx).2, (c.BodyConfig ctx).2] ∧
    ((c.ToMapper ctx).2 ≠ none ↔
      (c.TimeConfig ctx).2 ≠ none ∨ (c.LevelConfig ctx).2 ≠ none ∨
        (c.BodyConfig ctx).2 ≠ none) ∧
    (∀ e, (c.TimeConfig ctx).2 = some e ∨ (c.LevelConfig ctx).2 = some e ∨
        (c.BodyConfig ctx).2 = some e →
      ∃ es, (c.ToMapper ctx).2 = some (.joinError es) ∧ e ∈ es) ∧
    (∀ r, ((c.ToMapper ctx).1.MapToTime r).m = GoMap.delete r (c.TimeConfig ctx).1 ∧
      ((c.ToMapper ctx).1.MapToLevel r).m = GoMap.delete r (c.LevelConfig ctx).1 ∧
      ((c.ToMapper ctx).1.MapToBody r).m = GoMap.delete r (c.BodyConfig ctx).1) ∧
    (MapperDefault ctx).2 = none := by
  have hj : (c.ToMapper ctx).2 =
      errorsJoin [(c.TimeConfig ctx).2, (c.LevelConfig ctx).2, (c.BodyConfig ctx).2] := rfl
  refine ⟨hj, ?_, ?_,
    fun r => ⟨MapToTime_m c ctx r, MapToLevel_m c ctx r, MapToBody_m c ctx r⟩, rfl⟩
  · rw [hj, Ne, errorsJoin_eq_none_iff]
    simp only [List.mem_cons, List.mem_singleton, List.not_mem_nil, or_false, forall_eq_or_imp,
      forall_eq]
    tauto
  · intro e he
    rw [hj]
    apply errorsJoin_mem
    rcases he with he | he | he <;> simp [he]

/-- Claim C17 at a configuration whose time key and body key both fail: the
returned error wraps both errors. -/
theorem C17_mapper_construction_witness :
    ((MapperConfigNewDefault timeParse (GetEnvByKey (fun _ => none) "T") LevelKeyDefault
        (GetEnvByKey (fun _ => none) "B")).ToMapper Background).2 =
      some (.joinError [.errorString "no value got for this key: T",
        .errorString "no value got for this key: B"]) ∧
    (MapperDefault Background).2 = none :=
  ⟨(C17_mapper_construction (MapperConfigNewDefault timeParse (GetEnvByKey (fun _ => none) "T")
      LevelKeyDefault (GetEnvByKey (fun _ => none) "B")) Background).1.trans rfl,
   (C17_mapper_construction MapperConfigDefault Background).2.2.2.2⟩

/-- Claim C18 (Bind sequencing law): when `i(ctx)` fails, `Bind(i, f)(ctx)`
returns the zero value with the same error, whatever `f` is; when `i(ctx)`
succeeds with `t`, `Bind(i, f)(ctx)` is `f(t)(ctx)`; and `Of` is a left
identity of `Bind`. -/
theorem C18_bind_law {T U : Type} (zero : U) (i : IOFn T) (f : T → IOFn U) (ctx : Context) :
    (∀ e, (i ctx).2 = some e →
      Bind zero i f ctx = (zero, some e) ∧
      ∀ f2 : T → IOFn U, Bind zero i f2 ctx = Bind zero i f ctx) ∧
    (∀ t, i ctx = (t, none) → Bind zero i f ctx = f t ctx) ∧
    (∀ t, Bind zero (Of t) f ctx = f t ctx) := by
  refine ⟨?_, ?_, ?_⟩
  · intro e he
    refine ⟨by simp [Bind, he], fun f2 => by simp [Bind, he]⟩
  · intro t ht
    simp [Bind, ht]
  · intro t
    simp [Bind, Of]

/-- Claim C18 at a failing lookup of an unset variable and at a successful
one. -/
theorem C18_bind_law_witness :
    Bind 0 (GetEnvByKey (fun _ => none) "K") (fun s => Of s.length) Background =
      (0, some (.errorString "no value got for this key: K")) ∧
    Bind 0 (GetEnvByKey (fun _ => some "abc") "K") (fun s => Of s.length) Background =
      (3, none) :=
  ⟨((C18_bind_law 0 (GetEnvByKey (fun _ => none) "K") (fun s => Of s.length)
      Background).1 (.errorString "no value got for this key: K") rfl).1,
   ((C18_bind_law 0 (GetEnvByKey (fun _ => some "abc") "K") (fun s => Of s.length)
      Background).2.1 "abc" rfl).trans rfl⟩

end Log2Avro
